import Mathlib

/-!
# A shallow embedding of the `pg_wire` protocol engine

This file embeds the core of the `pg_wire` Rust crate (PostgreSQL v3 wire
protocol, server side) into Lean 4 and proves properties of the embedding.

Modelling conventions:
* a Rust byte (`u8`) is a `Nat` (values `< 256` hold by construction for
  every byte the embedded encoders produce; decoder inputs carry explicit
  bound hypotheses where it matters);
* a byte buffer (`&[u8]` / `Vec<u8>`) is a `List Nat`;
* Rust machine integers (`i16`/`i32`/`i64`/`u32`) are unbounded `Int`/`Nat`
  together with explicit wrapping (`% 2^w`) exactly where the Rust code
  performs an `as` cast or where two's-complement interpretation happens;
* a Rust `String`/`&str` is its UTF-8 byte list (a Rust string is by
  definition a valid-UTF-8 byte sequence);
* fallible Rust functions returning `Result<T, E>` become `Except E T`;
* stateful objects (`HandShakeProcess`, `MessageDecoder`, the connection
  supervisor) become explicit state-passing functions.
-/

deriving instance DecidableEq for Except

namespace PgWire

/-! ## Big-endian integers and machine-integer casts -/

/-- Interpret `n < 2^w` as a `w`-bit two's-complement signed integer. -/
def toSigned (w : Nat) (n : Nat) : Int :=
  if n < 2 ^ (w - 1) then (n : Int) else (n : Int) - 2 ^ w

/-- Big-endian value of a byte list (each byte taken mod 256). -/
def beNat : List Nat → Nat
  | [] => 0
  | b :: rest => (b % 256) * 256 ^ rest.length + beNat rest

/-- The low `w` bits of an integer, as a natural number (`x mod 2^w`). -/
def lowBits (w : Nat) (x : Int) : Nat := (x % (2 ^ w : Nat)).toNat

/-- Rust `as i16` from a wider integer: truncate to 16 bits, reinterpret signed. -/
def wrapI16 (x : Int) : Int := toSigned 16 (lowBits 16 x)

/-- Rust `as i32` from a wider integer: truncate to 32 bits, reinterpret signed. -/
def wrapI32 (x : Int) : Int := toSigned 32 (lowBits 32 x)

/-- Rust `as usize` from an `i32` on a 64-bit target:
sign-extend to 64 bits and reinterpret as unsigned. -/
def usizeOfI32 (x : Int) : Nat := lowBits 64 x

/-- `i16::to_be_bytes` (two's complement, 2 bytes, big-endian). -/
def i16ToBeBytes (x : Int) : List Nat :=
  let n := lowBits 16 x
  [n / 2 ^ 8 % 256, n % 256]

/-- `i32::to_be_bytes` / `u32::to_be_bytes` (4 bytes, big-endian). -/
def i32ToBeBytes (x : Int) : List Nat :=
  let n := lowBits 32 x
  [n / 2 ^ 24 % 256, n / 2 ^ 16 % 256, n / 2 ^ 8 % 256, n % 256]

/-- `i64::to_be_bytes` (8 bytes, big-endian). -/
def i64ToBeBytes (x : Int) : List Nat :=
  let n := lowBits 64 x
  [n / 2 ^ 56 % 256, n / 2 ^ 48 % 256, n / 2 ^ 40 % 256,
   n / 2 ^ 32 % 256, n / 2 ^ 24 % 256, n / 2 ^ 16 % 256, n / 2 ^ 8 % 256, n % 256]

/-- `u32::to_be_bytes` for an unsigned value. -/
def u32ToBeBytes (n : Nat) : List Nat := i32ToBeBytes (Int.ofNat n)

/-- `i16::from_be_bytes` on the first two bytes. -/
def beI16 (bs : List Nat) : Int := toSigned 16 (beNat (bs.take 2))

/-- `i32::from_be_bytes` on the first four bytes. -/
def beI32 (bs : List Nat) : Int := toSigned 32 (beNat (bs.take 4))

/-- `i64::from_be_bytes` on the first eight bytes. -/
def beI64 (bs : List Nat) : Int := toSigned 64 (beNat (bs.take 8))

/-! ## UTF-8 validation and decoding

Rust `str::from_utf8` accepts exactly well-formed UTF-8 (shortest form, no
surrogates, scalar values up to `0x10FFFF`).  `utf8Decode` both validates a
byte list and returns its Unicode scalar values; `str` values are modelled
as their (valid) byte lists, while `char`-level operations (`trim`,
`to_lowercase`, `parse`) act on the decoded scalar values. -/

/-- Is a UTF-8 continuation byte (`0x80..=0xBF`). -/
def isCont (b : Nat) : Bool := 0x80 ≤ b && b ≤ 0xBF

/-- Allowed range of the second byte of a three-byte sequence
(restricted for `0xE0` against overlong forms and for `0xED` against
surrogates). -/
def snd3ok (b c1 : Nat) : Bool :=
  if b = 0xE0 then decide (0xA0 ≤ c1 ∧ c1 ≤ 0xBF)
  else if b = 0xED then decide (0x80 ≤ c1 ∧ c1 ≤ 0x9F)
  else isCont c1

/-- Allowed range of the second byte of a four-byte sequence
(restricted for `0xF0` against overlong forms and for `0xF4` against
values above `0x10FFFF`). -/
def snd4ok (b c1 : Nat) : Bool :=
  if b = 0xF0 then decide (0x90 ≤ c1 ∧ c1 ≤ 0xBF)
  else if b = 0xF4 then decide (0x80 ≤ c1 ∧ c1 ≤ 0x8F)
  else isCont c1

/-- Scalar value of a two-byte sequence. -/
def cp2 (b c1 : Nat) : Nat := (b - 0xC0) * 0x40 + (c1 - 0x80)

/-- Scalar value of a three-byte sequence. -/
def cp3 (b c1 c2 : Nat) : Nat :=
  (b - 0xE0) * 0x1000 + (c1 - 0x80) * 0x40 + (c2 - 0x80)

/-- Scalar value of a four-byte sequence. -/
def cp4 (b c1 c2 c3 : Nat) : Nat :=
  (b - 0xF0) * 0x40000 + (c1 - 0x80) * 0x1000 + (c2 - 0x80) * 0x40 + (c3 - 0x80)

/-- Fuelled UTF-8 decoder; every step consumes at least one input byte and
one unit of fuel, so fuel equal to the input length is always sufficient
(`utf8Decode` below supplies exactly that).  The acceptance condition mirrors
the Rust standard library's validation table used by `str::from_utf8`. -/
def utf8DecodeF : Nat → List Nat → Option (List Nat)
  | _, [] => some []
  | 0, _ :: _ => none
  | fuel + 1, b :: rest =>
    if b < 0x80 then (utf8DecodeF fuel rest).map (b :: ·)
    else if b < 0xC2 then none
    else if b ≤ 0xDF then
      match rest with
      | c1 :: rest1 =>
        if isCont c1 then (utf8DecodeF fuel rest1).map (cp2 b c1 :: ·) else none
      | [] => none
    else if b ≤ 0xEF then
      match rest with
      | c1 :: c2 :: rest2 =>
        if snd3ok b c1 && isCont c2 then
          (utf8DecodeF fuel rest2).map (cp3 b c1 c2 :: ·)
        else none
      | _ => none
    else if b ≤ 0xF4 then
      match rest with
      | c1 :: c2 :: c3 :: rest3 =>
        if snd4ok b c1 && isCont c2 && isCont c3 then
          (utf8DecodeF fuel rest3).map (cp4 b c1 c2 c3 :: ·)
        else none
      | _ => none
    else none

/-- Decode a UTF-8 byte list into its Unicode scalar values, or `none` when
the list is not valid UTF-8 (the model of Rust `str::from_utf8`). -/
def utf8Decode (bs : List Nat) : Option (List Nat) := utf8DecodeF bs.length bs

/-- A byte list is valid UTF-8 when decoding succeeds. -/
def utf8Valid (bs : List Nat) : Bool := (utf8Decode bs).isSome

/-! ## The byte cursor (`src/cursor.rs`)

A read-only cursor over a byte slice, modelled by state passing: each read
returns the value together with the remaining buffer. -/

/-- Errors of the byte cursor (`src/cursor.rs` uses the crate `Error` type). -/
inductive CursorErr where
  /-- `Error::InvalidInput(message)` -/
  | invalidInput (msg : String)
  /-- `Error::InvalidUtfString` -/
  | invalidUtfString
  /-- `Error::ZeroByteNotFound` -/
  | zeroByteNotFound
deriving DecidableEq, Repr

namespace Cursor

/-- `Cursor::read_byte`. -/
def read_byte (buf : List Nat) : Except CursorErr (Nat × List Nat) :=
  match buf with
  | [] => .error (.invalidInput "No byte to read")
  | b :: rest => .ok (b, rest)

/-- Split a byte list at its first zero byte: the bytes before the zero and
the bytes after it. -/
def splitAtZero : List Nat → Option (List Nat × List Nat)
  | [] => none
  | 0 :: rest => some ([], rest)
  | b :: rest => (splitAtZero rest).map (fun pr => (b :: pr.1, pr.2))

/-- `Cursor::read_cstr`: bytes up to the first zero byte, UTF-8 validated,
cursor advanced past the terminator. -/
def read_cstr (buf : List Nat) : Except CursorErr (List Nat × List Nat) :=
  match splitAtZero buf with
  | none => .error .zeroByteNotFound
  | some (pre, post) =>
    if utf8Valid pre then .ok (pre, post) else .error .invalidUtfString

/-- `Cursor::read_i16` (big-endian). -/
def read_i16 (buf : List Nat) : Except CursorErr (Int × List Nat) :=
  if buf.length < 2 then .error (.invalidInput "not enough buffer to read 16bit Int")
  else .ok (beI16 buf, buf.drop 2)

/-- `Cursor::read_i32` (big-endian). -/
def read_i32 (buf : List Nat) : Except CursorErr (Int × List Nat) :=
  if buf.length < 4 then .error (.invalidInput "not enough buffer to read 32bit Int")
  else .ok (beI32 buf, buf.drop 4)

/-- `Cursor::read_u32`: `read_i32` reinterpreted as `u32` (`val as u32`). -/
def read_u32 (buf : List Nat) : Except CursorErr (Nat × List Nat) :=
  (read_i32 buf).map (fun pr => (lowBits 32 pr.1, pr.2))

/-- `Cursor::read_i64` (big-endian). -/
def read_i64 (buf : List Nat) : Except CursorErr (Int × List Nat) :=
  if buf.length < 8 then .error (.invalidInput "not enough buffer to read 64bit Int")
  else .ok (beI64 buf, buf.drop 8)

end Cursor

/-! ## Character-level string operations

Rust `str::trim`, `str::to_lowercase` and integer `parse` operate on the
`char`s of a string, i.e. on the scalar values produced by `utf8Decode`. -/

/-- Rust `char::is_whitespace` (the Unicode `White_Space` property). -/
def isWs (c : Nat) : Bool :=
  c == 9 || c == 10 || c == 11 || c == 12 || c == 13 || c == 32 ||
  c == 0x85 || c == 0xA0 || c == 0x1680 ||
  decide (0x2000 ≤ c ∧ c ≤ 0x200A) ||
  c == 0x2028 || c == 0x2029 || c == 0x202F || c == 0x205F || c == 0x3000

/-- Rust `str::trim`: strip leading and trailing whitespace characters. -/
def trimChars (cs : List Nat) : List Nat :=
  ((cs.dropWhile isWs).reverse.dropWhile isWs).reverse

/-- Lowercase one character.  Rust `to_lowercase` applies the full Unicode
mapping; this model lowercases the ASCII range, which agrees with Rust on
every input this development evaluates (the only consumer compares against
the pure-ASCII truthy/falsy word lists). -/
def asciiLowerChar (c : Nat) : Nat := if 65 ≤ c ∧ c ≤ 90 then c + 32 else c

/-- Lowercase a character list (see `asciiLowerChar`). -/
def asciiLowercase (cs : List Nat) : List Nat := cs.map asciiLowerChar

/-- Is an ASCII decimal digit. -/
def isDigit (c : Nat) : Bool := 48 ≤ c && c ≤ 57

/-- Value of a most-significant-first decimal digit list. -/
def digitsVal (ds : List Nat) : Nat := List.foldl (fun a d => a * 10 + d) 0 ds

/-- Parse a nonempty all-digit character list into a natural number. -/
def parseDigits (cs : List Nat) : Option Nat :=
  if cs.isEmpty then none
  else if cs.all isDigit then some (digitsVal (cs.map (· - 48))) else none

/-- Rust `i16/i32/i64::from_str` over the characters of a trimmed string:
an optional sign, then a nonempty run of decimal digits, rejected when the
value leaves `[lo, hi]`.  (Rust checks overflow during accumulation; for a
digit string this is equivalent to the final range check performed here,
because every intermediate prefix value is bounded by the final value.) -/
def parseIntRust (cs : List Nat) (lo hi : Int) : Option Int :=
  match cs with
  | [] => none
  | c :: rest =>
    if c = 43 then
      (parseDigits rest).bind fun n =>
        if lo ≤ (n : Int) ∧ (n : Int) ≤ hi then some (n : Int) else none
    else if c = 45 then
      (parseDigits rest).bind fun n =>
        if lo ≤ -(n : Int) ∧ -(n : Int) ≤ hi then some (-(n : Int)) else none
    else
      (parseDigits (c :: rest)).bind fun n =>
        if lo ≤ (n : Int) ∧ (n : Int) ≤ hi then some (n : Int) else none

/-- Fuelled most-significant-first decimal digits of `n`; every recursion
divides `n` by ten, so fuel `n` is always sufficient (`natDigits` supplies
that). -/
def natDigitsF : Nat → Nat → List Nat
  | 0, n => [n % 10]
  | f + 1, n => if n < 10 then [n] else natDigitsF f (n / 10) ++ [n % 10]

/-- Decimal digits of `n`, most significant first. -/
def natDigits (n : Nat) : List Nat := natDigitsF n n

/-- ASCII decimal representation of a natural number. -/
def natDecBytes (n : Nat) : List Nat := (natDigits n).map (· + 48)

/-- ASCII decimal representation of an integer (Rust `ToString` for the
integer types: a `-` sign for negatives, then the decimal digits). -/
def intDecBytes (x : Int) : List Nat :=
  if x < 0 then 45 :: natDecBytes (-x).toNat else natDecBytes x.toNat

/-! ## The type and format codec (`src/types.rs`, `PgFormat` from `src/lib.rs`) -/

/-- `PgFormat`: `0` text, `1` binary. -/
inductive PgFormat where
  | Text
  | Binary
deriving DecidableEq, Repr

/-- `PgFormat::try_from(i16)`; the error carries the unrecognized code
(`UnrecognizedFormat`). -/
def PgFormat.try_from (value : Int) : Except Int PgFormat :=
  if value = 0 then .ok .Text
  else if value = 1 then .ok .Binary
  else .error value

/-- `PgType`: the supported PostgreSQL data types. -/
inductive PgType where
  | SmallInt
  | Integer
  | BigInt
  | Char
  | VarChar
  | Bool
deriving DecidableEq, Repr

/-- `PgType::type_oid`. -/
def PgType.type_oid : PgType → Nat
  | .Bool => 16
  | .Char => 18
  | .BigInt => 20
  | .SmallInt => 21
  | .Integer => 23
  | .VarChar => 1043

/-- `PgType::type_len`. -/
def PgType.type_len : PgType → Int
  | .Bool => 1
  | .Char => 1
  | .BigInt => 8
  | .SmallInt => 2
  | .Integer => 4
  | .VarChar => -1

/-- `PgType::from_oid`; the error carries the unsupported OID
(`NotSupportedOid`). -/
def PgType.from_oid (oid : Nat) : Except Nat (Option PgType) :=
  match oid with
  | 0 => .ok none
  | 16 => .ok (some .Bool)
  | 18 => .ok (some .Char)
  | 20 => .ok (some .BigInt)
  | 21 => .ok (some .SmallInt)
  | 23 => .ok (some .Integer)
  | 1043 => .ok (some .VarChar)
  | other => .error other

/-- `Value`: data values sent and received over the wire.  A Rust `String`
is its UTF-8 byte list. -/
inductive Value where
  | Null
  | Bool (b : Bool)
  | Int16 (x : Int)
  | Int32 (x : Int)
  | Int64 (x : Int)
  | String (bytes : List Nat)
deriving DecidableEq, Repr

/-- `TypeValueDecodeErrorKind` (`src/errors.rs`). -/
inductive TypeValueDecodeErrorKind where
  | NotEnoughBytes (required_bytes : Nat) (source : List Nat) (pg_type : PgType)
  | CannotDecodeString (source : List Nat)
  | CannotParseBool (source : List Nat)
  | CannotParseInt (source : List Nat) (pg_type : PgType)
deriving DecidableEq, Repr

/-- `BOOL_TRUE`: the truthy words `t tr tru true y ye yes on 1`
(as character lists). -/
def BOOL_TRUE : List (List Nat) :=
  [[116], [116, 114], [116, 114, 117], [116, 114, 117, 101],
   [121], [121, 101], [121, 101, 115], [111, 110], [49]]

/-- `BOOL_FALSE`: the falsy words `f fa fal fals false n no of off 0`
(as character lists). -/
def BOOL_FALSE : List (List Nat) :=
  [[102], [102, 97], [102, 97, 108], [102, 97, 108, 115], [102, 97, 108, 115, 101],
   [110], [110, 111], [111, 102], [111, 102, 102], [48]]

/-- `PgType::decode_binary`. -/
def PgType.decode_binary (t : PgType) (raw : List Nat) :
    Except TypeValueDecodeErrorKind Value :=
  match t with
  | .Bool =>
    match raw with
    | [] => .error (.NotEnoughBytes 1 raw .Bool)
    | b :: _ => .ok (.Bool (b != 0))
  | .Char =>
    match utf8Decode raw with
    | some _ => .ok (.String raw)
    | none => .error (.CannotDecodeString raw)
  | .VarChar =>
    match utf8Decode raw with
    | some _ => .ok (.String raw)
    | none => .error (.CannotDecodeString raw)
  | .SmallInt =>
    if raw.length < 4 then .error (.NotEnoughBytes 4 raw .SmallInt)
    else .ok (.Int16 (wrapI16 (beI32 raw)))
  | .Integer =>
    if raw.length < 4 then .error (.NotEnoughBytes 4 raw .Integer)
    else .ok (.Int32 (beI32 raw))
  | .BigInt =>
    if raw.length < 8 then .error (.NotEnoughBytes 8 raw .BigInt)
    else .ok (.Int64 (beI64 raw))

/-- `PgType::decode_text`. -/
def PgType.decode_text (t : PgType) (raw : List Nat) :
    Except TypeValueDecodeErrorKind Value :=
  match utf8Decode raw with
  | none => .error (.CannotDecodeString raw)
  | some chars =>
    match t with
    | .Bool =>
      let v := asciiLowercase (trimChars chars)
      if BOOL_TRUE.contains v then .ok (.Bool true)
      else if BOOL_FALSE.contains v then .ok (.Bool false)
      else .error (.CannotParseBool raw)
    | .Char => .ok (.String raw)
    | .VarChar => .ok (.String raw)
    | .SmallInt =>
      match parseIntRust (trimChars chars) (-(2 ^ 15)) (2 ^ 15 - 1) with
      | some v => .ok (.Int16 v)
      | none => .error (.CannotParseInt raw .SmallInt)
    | .Integer =>
      match parseIntRust (trimChars chars) (-(2 ^ 31)) (2 ^ 31 - 1) with
      | some v => .ok (.Int32 v)
      | none => .error (.CannotParseInt raw .Integer)
    | .BigInt =>
      match parseIntRust (trimChars chars) (-(2 ^ 63)) (2 ^ 63 - 1) with
      | some v => .ok (.Int64 v)
      | none => .error (.CannotParseInt raw .BigInt)

/-- `PgType::decode`. -/
def PgType.decode (t : PgType) (format : PgFormat) (raw : List Nat) :
    Except TypeValueDecodeErrorKind Value :=
  match format with
  | .Binary => t.decode_binary raw
  | .Text => t.decode_text raw

/-- Modelled from the spec: the repository contains no value encoder — §8's
round-trip law `decode(type, format, encode(type, format, value)) == value`
quantifies over one.  Binary follows §4.2's binary decoding rules read in
reverse (integers big-endian, `SmallInt` "sign-extended to i32" per the
spec's note, bool one byte, strings their UTF-8 bytes); text is the
canonical textual form (decimal integers, `true`/`false`, identity for
strings).  Values whose constructor does not match the type encode to the
empty list (the round-trip law never reaches them). -/
def encodeValue : PgType → PgFormat → Value → List Nat
  | .Bool, .Binary, .Bool b => [if b then 1 else 0]
  | .Bool, .Text, .Bool b =>
    if b then [116, 114, 117, 101] else [102, 97, 108, 115, 101]
  | .SmallInt, .Binary, .Int16 x => i32ToBeBytes x
  | .SmallInt, .Text, .Int16 x => intDecBytes x
  | .Integer, .Binary, .Int32 x => i32ToBeBytes x
  | .Integer, .Text, .Int32 x => intDecBytes x
  | .BigInt, .Binary, .Int64 x => i64ToBeBytes x
  | .BigInt, .Text, .Int64 x => intDecBytes x
  | .Char, _, .String bs => bs
  | .VarChar, _, .String bs => bs
  | _, _, _ => []

/-- A value inhabits a type (with Rust machine-integer ranges; strings are
valid UTF-8, as every Rust `String` is). -/
def wellFormedValue : PgType → Value → Prop
  | .Bool, .Bool _ => True
  | .SmallInt, .Int16 x => -2 ^ 15 ≤ x ∧ x < 2 ^ 15
  | .Integer, .Int32 x => -2 ^ 31 ≤ x ∧ x < 2 ^ 31
  | .BigInt, .Int64 x => -2 ^ 63 ≤ x ∧ x < 2 ^ 63
  | .Char, .String bs => utf8Valid bs = true
  | .VarChar, .String bs => utf8Valid bs = true
  | _, _ => False

/-! ## Backend messages and their encoder (`src/messages.rs`)

The message tag constants, by their source names. -/

def COMMAND_COMPLETE : Nat := 67
def DATA_ROW : Nat := 68
def ERROR_RESPONSE : Nat := 69
def SEVERITY : Nat := 83
def CODE : Nat := 67
def MESSAGE : Nat := 77
def EMPTY_QUERY_RESPONSE : Nat := 73
def NOTICE_RESPONSE : Nat := 78
def AUTHENTICATION : Nat := 82
def BACKEND_KEY_DATA : Nat := 75
def PARAMETER_STATUS : Nat := 83
def ROW_DESCRIPTION : Nat := 84
def READY_FOR_QUERY : Nat := 90
def PARAMETER_DESCRIPTION : Nat := 116
def NO_DATA : Nat := 110
def PARSE_COMPLETE : Nat := 49
def BIND_COMPLETE : Nat := 50
def CLOSE_COMPLETE : Nat := 51

def QUERY : Nat := 81
def BIND : Nat := 66
def CLOSE : Nat := 67
def DESCRIBE : Nat := 68
def EXECUTE : Nat := 69
def FLUSH : Nat := 72
def PARSE : Nat := 80
def SYNC : Nat := 83
def TERMINATE : Nat := 88

/-- `ColumnMetadata`. -/
structure ColumnMetadata where
  name : List Nat
  type_id : Nat
  type_size : Int
deriving DecidableEq, Repr

/-- `ColumnMetadata::new`. -/
def ColumnMetadata.new (name : List Nat) (pg_type : PgType) : ColumnMetadata :=
  { name := name, type_id := pg_type.type_oid, type_size := pg_type.type_len }

/-- `BackendMessage`. -/
inductive BackendMessage where
  | NoticeResponse
  | AuthenticationCleartextPassword
  | AuthenticationMD5Password
  | AuthenticationOk
  | BackendKeyData (conn_id : Int) (secret_key : Int)
  | ReadyForQuery
  | DataRow (row : List (List Nat))
  | RowDescription (description : List ColumnMetadata)
  | CommandComplete (command : List Nat)
  | EmptyQueryResponse
  | ErrorResponse (severity : Option (List Nat)) (code : Option (List Nat))
      (message : Option (List Nat))
  | ParameterStatus (name : List Nat) (value : List Nat)
  | ParameterDescription (types : List PgType)
  | NoData
  | ParseComplete
  | BindComplete
  | CloseComplete
deriving DecidableEq, Repr

/-- The `row_buff` accumulated by the `DataRow` arm of `as_vec`: per field a
big-endian `i32` length then the field bytes. -/
def dataRowBody : List (List Nat) → List Nat
  | [] => []
  | field :: rest => i32ToBeBytes (Int.ofNat field.length) ++ field ++ dataRowBody rest

/-- The `buff` accumulated by the `RowDescription` arm of `as_vec`: per
field the name as a C string, table id `0i32`, column id `0i16`, the type
OID, the type size, type modifier `-1i32`, and format `0i16`. -/
def rowDescriptionBody : List ColumnMetadata → List Nat
  | [] => []
  | field :: rest =>
    field.name ++ [0] ++ i32ToBeBytes 0 ++ i16ToBeBytes 0 ++
    u32ToBeBytes field.type_id ++ i16ToBeBytes field.type_size ++
    i32ToBeBytes (-1) ++ i16ToBeBytes 0 ++ rowDescriptionBody rest

/-- One optional `ErrorResponse` field: tag byte, bytes, terminator. -/
def optField (tag : Nat) : Option (List Nat) → List Nat
  | none => []
  | some s => tag :: s ++ [0]

/-- The `type_id_buff` of the `ParameterDescription` arm of `as_vec`. -/
def paramDescBody : List PgType → List Nat
  | [] => []
  | t :: rest => u32ToBeBytes t.type_oid ++ paramDescBody rest

/-- `BackendMessage::as_vec`.  Rust narrows lengths with `as i32`/`as i16`
wrapping casts before `to_be_bytes`; since `iNToBeBytes` takes the value
mod `2^N` anyway, pre-wrapping produces the same bytes and is omitted. -/
def BackendMessage.as_vec : BackendMessage → List Nat
  | .NoticeResponse => [NOTICE_RESPONSE]
  | .AuthenticationCleartextPassword => [AUTHENTICATION, 0, 0, 0, 8, 0, 0, 0, 3]
  | .AuthenticationMD5Password => [AUTHENTICATION, 0, 0, 0, 12, 0, 0, 0, 5, 1, 1, 1, 1]
  | .AuthenticationOk => [AUTHENTICATION, 0, 0, 0, 8, 0, 0, 0, 0]
  | .BackendKeyData conn_id secret_key =>
    [BACKEND_KEY_DATA, 0, 0, 0, 12] ++ i32ToBeBytes conn_id ++ i32ToBeBytes secret_key
  | .ReadyForQuery => [READY_FOR_QUERY, 0, 0, 0, 5, EMPTY_QUERY_RESPONSE]
  | .DataRow row =>
    let row_buff := dataRowBody row
    [DATA_ROW] ++ i32ToBeBytes (6 + Int.ofNat row_buff.length) ++
    i16ToBeBytes (Int.ofNat row.length) ++ row_buff
  | .RowDescription description =>
    let buff := rowDescriptionBody description
    [ROW_DESCRIPTION] ++ i32ToBeBytes (6 + Int.ofNat buff.length) ++
    i16ToBeBytes (Int.ofNat description.length) ++ buff
  | .CommandComplete command =>
    [COMMAND_COMPLETE] ++ i32ToBeBytes (4 + Int.ofNat command.length + 1) ++
    command ++ [0]
  | .EmptyQueryResponse => [EMPTY_QUERY_RESPONSE, 0, 0, 0, 4]
  | .ErrorResponse severity code message =>
    let message_buff := optField SEVERITY severity ++ optField CODE code ++
      optField MESSAGE message
    [ERROR_RESPONSE] ++ i32ToBeBytes (Int.ofNat message_buff.length + 4 + 1) ++
    message_buff ++ [0]
  | .ParameterStatus name value =>
    let parameters := name ++ [0] ++ value ++ [0]
    [PARAMETER_STATUS] ++ u32ToBeBytes (4 + parameters.length) ++ parameters
  | .ParameterDescription pg_types =>
    let type_id_buff := paramDescBody pg_types
    [PARAMETER_DESCRIPTION] ++ i32ToBeBytes (6 + Int.ofNat type_id_buff.length) ++
    i16ToBeBytes (Int.ofNat pg_types.length) ++ type_id_buff
  | .NoData => [NO_DATA, 0, 0, 0, 4]
  | .ParseComplete => [PARSE_COMPLETE, 0, 0, 0, 4]
  | .BindComplete => [BIND_COMPLETE, 0, 0, 0, 4]
  | .CloseComplete => [CLOSE_COMPLETE, 0, 0, 0, 4]

/-! ## Frontend messages and their decoding
(`src/message_decoder.rs`, `FrontendMessage` from `src/messages.rs`) -/

/-- `FrontendMessage` (the decoded commands; `max_rows` is an `i32`). -/
inductive FrontendMessage where
  | Query (sql : List Nat)
  | Parse (statement_name : List Nat) (sql : List Nat) (param_types : List (Option PgType))
  | DescribeStatement (name : List Nat)
  | DescribePortal (name : List Nat)
  | Bind (portal_name : List Nat) (statement_name : List Nat)
      (param_formats : List PgFormat) (raw_params : List (Option (List Nat)))
      (result_formats : List PgFormat)
  | Execute (portal_name : List Nat) (max_rows : Int)
  | Flush
  | Sync
  | CloseStatement (name : List Nat)
  | ClosePortal (name : List Nat)
  | Terminate
deriving DecidableEq, Repr

/-- `MessageFormatErrorKind` (`src/errors.rs`; cursor failures are carried
by the `Payload` variant). -/
inductive MessageFormatError where
  | MissingMessageTag
  | UnsupportedFrontendMessage (tag : Nat)
  | InvalidTypeByte (byte : Nat)
  | NotSupportedOid (oid : Nat)
  | UnrecognizedFormat (code : Int)
  | Payload (e : CursorErr)
deriving DecidableEq, Repr

/-- Lift a cursor failure into a message-format error (the `From` impl
behind the `?` operator). -/
def liftC {α : Type} : Except CursorErr α → Except MessageFormatError α
  | .ok a => .ok a
  | .error e => .error (.Payload e)

/-- `for _ in 0..n { param_formats.push(PgFormat::try_from(read_i16()?)?) }`. -/
def readFormats : Nat → List Nat → Except MessageFormatError (List PgFormat × List Nat)
  | 0, buf => .ok ([], buf)
  | k + 1, buf => do
    let (v, buf) ← liftC (Cursor.read_i16 buf)
    match PgFormat.try_from v with
    | .ok format => (readFormats k buf).map (fun pr => (format :: pr.1, pr.2))
    | .error code => .error (.UnrecognizedFormat code)

/-- `for _ in 0..len { value.push(read_byte()?) }`. -/
def readBytesN : Nat → List Nat → Except MessageFormatError (List Nat × List Nat)
  | 0, buf => .ok ([], buf)
  | k + 1, buf => do
    let (b, buf) ← liftC (Cursor.read_byte buf)
    let (bs, buf) ← readBytesN k buf
    .ok (b :: bs, buf)

/-- The `raw_params` loop of the `Bind` arm: per parameter an `i32` length;
`-1` is a NULL parameter, otherwise `len` bytes follow (a negative `len`
other than `-1` runs the byte loop zero times, `for _ in 0..len`). -/
def readRawParams : Nat → List Nat → Except MessageFormatError (List (Option (List Nat)) × List Nat)
  | 0, buf => .ok ([], buf)
  | k + 1, buf => do
    let (len, buf) ← liftC (Cursor.read_i32 buf)
    if len = -1 then
      (readRawParams k buf).map (fun pr => (none :: pr.1, pr.2))
    else do
      let (value, buf) ← readBytesN len.toNat buf
      (readRawParams k buf).map (fun pr => (some value :: pr.1, pr.2))

/-- The `PARSE` arm's parameter-type loop: per parameter a `u32` OID mapped
through `PgType::from_oid`. -/
def readParamTypes : Nat → List Nat → Except MessageFormatError (List (Option PgType) × List Nat)
  | 0, buf => .ok ([], buf)
  | k + 1, buf => do
    let (oid, buf) ← liftC (Cursor.read_u32 buf)
    match PgType.from_oid oid with
    | .ok pg_type => (readParamTypes k buf).map (fun pr => (pg_type :: pr.1, pr.2))
    | .error o => .error (.NotSupportedOid o)

/-- The `BIND` arm of `MessageDecoder::decode` (also `decode_bind` in
`src/messages.rs`). -/
def decode_bind (buf : List Nat) : Except MessageFormatError FrontendMessage := do
  let (portal_name, buf) ← liftC (Cursor.read_cstr buf)
  let (statement_name, buf) ← liftC (Cursor.read_cstr buf)
  let (npf, buf) ← liftC (Cursor.read_i16 buf)
  let (param_formats, buf) ← readFormats npf.toNat buf
  let (npv, buf) ← liftC (Cursor.read_i16 buf)
  let (raw_params, buf) ← readRawParams npv.toNat buf
  let (nrf, buf) ← liftC (Cursor.read_i16 buf)
  let (result_formats, _) ← readFormats nrf.toNat buf
  .ok (.Bind portal_name statement_name param_formats raw_params result_formats)

/-- `MessageDecoder::decode`: dispatch a message body on its tag byte. -/
def decodeMessage (tag : Nat) (buffer : List Nat) : Except MessageFormatError FrontendMessage :=
  if tag = QUERY then do
    let (sql, _) ← liftC (Cursor.read_cstr buffer)
    .ok (.Query sql)
  else if tag = BIND then decode_bind buffer
  else if tag = CLOSE then do
    let (first_char, buf) ← liftC (Cursor.read_byte buffer)
    let (name, _) ← liftC (Cursor.read_cstr buf)
    if first_char = 80 then .ok (.ClosePortal name)
    else if first_char = 83 then .ok (.CloseStatement name)
    else .error (.InvalidTypeByte first_char)
  else if tag = DESCRIBE then do
    let (first_char, buf) ← liftC (Cursor.read_byte buffer)
    let (name, _) ← liftC (Cursor.read_cstr buf)
    if first_char = 80 then .ok (.DescribePortal name)
    else if first_char = 83 then .ok (.DescribeStatement name)
    else .error (.InvalidTypeByte first_char)
  else if tag = EXECUTE then do
    let (portal_name, buf) ← liftC (Cursor.read_cstr buffer)
    let (max_rows, _) ← liftC (Cursor.read_i32 buf)
    .ok (.Execute portal_name max_rows)
  else if tag = FLUSH then .ok .Flush
  else if tag = PARSE then do
    let (statement_name, buf) ← liftC (Cursor.read_cstr buffer)
    let (sql, buf) ← liftC (Cursor.read_cstr buf)
    let (n, buf) ← liftC (Cursor.read_i16 buf)
    let (param_types, _) ← readParamTypes n.toNat buf
    .ok (.Parse statement_name sql param_types)
  else if tag = SYNC then .ok .Sync
  else if tag = TERMINATE then .ok .Terminate
  else .error (.UnsupportedFrontendMessage tag)

/-! ## Request codes (`src/request_codes.rs`), as `i32` values -/

def VERSION_1_CODE : Int := 0x00010000
def VERSION_2_CODE : Int := 0x00020000
def VERSION_3_CODE : Int := 0x00030000
def CANCEL_REQUEST_CODE : Int := 80877102
def SSL_REQUEST_CODE : Int := 80877103
def GSSENC_REQUEST_CODE : Int := 80877104

/-! ## The handshake state machine, file variant `src/hand_shake.rs` -/

/-- `State` of `src/hand_shake.rs`. -/
inductive HsState where
  | MessageLen
  | ParseSetup
deriving DecidableEq, Repr

/-- `Status` of `src/hand_shake.rs`. -/
inductive HsStatus where
  | RequestingBytes (n : Nat)
  | UpdatingToSecureWithReadingBytes (n : Nat)
  | Done (props : List (List Nat × List Nat))
  | Cancel (conn_id : Int) (secret_key : Int)
deriving DecidableEq, Repr

/-- `HandShakeErrorKind` (`src/errors.rs`); cursor failures under `Payload`. -/
inductive HandShakeErrorKind where
  | UnsupportedProtocolVersion (code : Int)
  | UnsupportedClientRequest (code : Int)
  | Payload (e : CursorErr)
deriving DecidableEq, Repr

/-- The client-parameter loop of the `VERSION_3_CODE` arm: C-string pairs
until an empty key.  Fuelled: every iteration consumes at least one byte of
the buffer (`read_cstr` always consumes the terminator), so fuel
`buf.length + 1` is always sufficient (`readProps` supplies that). -/
def readPropsF : Nat → List Nat →
    Except CursorErr (List (List Nat × List Nat) × List Nat)
  | 0, _ => .error .zeroByteNotFound
  | f + 1, buf => do
    let (key, buf) ← Cursor.read_cstr buf
    if key.isEmpty then .ok ([], buf)
    else do
      let (value, buf) ← Cursor.read_cstr buf
      let (props, buf) ← readPropsF f buf
      .ok ((key, value) :: props, buf)

/-- The client-parameter loop (see `readPropsF`). -/
def readProps (buf : List Nat) :
    Except CursorErr (List (List Nat × List Nat) × List Nat) :=
  readPropsF (buf.length + 1) buf

namespace Process

/-- `Process::next_stage` of `src/hand_shake.rs`.  The Rust method mutates
`self.state` (`Option<State>`, `take`n at entry, so it stays `None` unless
reassigned); the model returns the result paired with the new state.  When
either the current state or the payload is absent the machine (re)starts:
`self.state.take().and_then(|state| payload.map(|buf| (state, buf)))`
matches `None` and the `None` arm answers `RequestingBytes(4)`.
The `MessageLen` arm computes `(len - 4) as usize` with release-mode
wrapping (`wrapI32` then sign-extending `usizeOfI32`). -/
def next_stage (state : Option HsState) (payload : Option (List Nat)) :
    Except HandShakeErrorKind HsStatus × Option HsState :=
  match state, payload with
  | some s, some bytes =>
    match s with
    | .MessageLen =>
      match Cursor.read_i32 bytes with
      | .error e => (.error (.Payload e), none)
      | .ok (len, _) =>
        (.ok (.RequestingBytes (usizeOfI32 (wrapI32 (len - 4)))), some .ParseSetup)
    | .ParseSetup =>
      match Cursor.read_i32 bytes with
      | .error e => (.error (.Payload e), none)
      | .ok (code, buf) =>
        if code = VERSION_1_CODE ∨ code = VERSION_2_CODE then
          (.error (.UnsupportedProtocolVersion code), none)
        else if code = VERSION_3_CODE then
          match readProps buf with
          | .error e => (.error (.Payload e), none)
          | .ok (props, _) => (.ok (.Done props), none)
        else if code = CANCEL_REQUEST_CODE then
          match Cursor.read_i32 buf with
          | .error e => (.error (.Payload e), none)
          | .ok (conn_id, buf2) =>
            match Cursor.read_i32 buf2 with
            | .error e => (.error (.Payload e), none)
            | .ok (secret_key, _) => (.ok (.Cancel conn_id secret_key), none)
        else if code = SSL_REQUEST_CODE then
          (.ok (.UpdatingToSecureWithReadingBytes 4), some .MessageLen)
        else
          (.error (.UnsupportedClientRequest code), none)
  | _, _ => (.ok (.RequestingBytes 4), some .MessageLen)

end Process

/-! ## The handshake state machine, directory variant `src/hand_shake/mod.rs` -/

/-- `State` of `src/hand_shake/mod.rs` (`SetupParsed` flattened into its
three `SetupParsed::…` payloads). -/
inductive StateM where
  | MessageLen
  | ParseSetup
  | SetupParsedEstablished (props : List (List Nat × List Nat))
  | SetupParsedCancel (conn_id : Int) (secret_key : Int)
  | SetupParsedSecure
deriving DecidableEq, Repr

/-- `Request` of `src/hand_shake/mod.rs`. -/
inductive RequestM where
  | Buffer (n : Nat)
  | UpgradeToSsl
deriving DecidableEq, Repr

/-- `Status` of `src/hand_shake/mod.rs`. -/
inductive StatusM where
  | Requesting (r : RequestM)
  | Done (props : List (List Nat × List Nat))
  | Cancel (conn_id : Int) (secret_key : Int)
deriving DecidableEq, Repr

/-- The crate `Error` type used by `src/hand_shake/mod.rs` (`src/lib.rs`);
its cursor-produced variants are carried by `Cursor`. -/
inductive ErrorM where
  | UnsupportedVersion (code : Int)
  | UnsupportedRequest (code : Int)
  | VerificationFailed
  | Cursor (e : CursorErr)
deriving DecidableEq, Repr

namespace ProcessM

/-- `Process::next_stage` of `src/hand_shake/mod.rs`.  Differences from the
file variant: the terminal outcomes are remembered in
`State::SetupParsed(…)`; a call with a payload in a `SetupParsed` state is
`Error::VerificationFailed`; a call without a payload is only legal in
`SetupParsed(Secure)` (which rearms `MessageLen`), otherwise
`VerificationFailed`. -/
def next_stage (state : Option StateM) (payload : Option (List Nat)) :
    Except ErrorM StatusM × Option StateM :=
  match state with
  | none => (.ok (.Requesting (.Buffer 4)), some .MessageLen)
  | some s =>
    match payload with
    | some bytes =>
      match s with
      | .MessageLen =>
        match Cursor.read_i32 bytes with
        | .error e => (.error (.Cursor e), none)
        | .ok (len, _) =>
          (.ok (.Requesting (.Buffer (usizeOfI32 (wrapI32 (len - 4))))), some .ParseSetup)
      | .ParseSetup =>
        match Cursor.read_i32 bytes with
        | .error e => (.error (.Cursor e), none)
        | .ok (code, buf) =>
          if code = VERSION_1_CODE ∨ code = VERSION_2_CODE then
            (.error (.UnsupportedVersion code), none)
          else if code = VERSION_3_CODE then
            match readProps buf with
            | .error e => (.error (.Cursor e), none)
            | .ok (props, _) =>
              (.ok (.Done props), some (.SetupParsedEstablished props))
          else if code = CANCEL_REQUEST_CODE then
            match Cursor.read_i32 buf with
            | .error e => (.error (.Cursor e), none)
            | .ok (conn_id, buf2) =>
              match Cursor.read_i32 buf2 with
              | .error e => (.error (.Cursor e), none)
              | .ok (secret_key, _) =>
                (.ok (.Cancel conn_id secret_key), some (.SetupParsedCancel conn_id secret_key))
          else if code = SSL_REQUEST_CODE then
            (.ok (.Requesting .UpgradeToSsl), some .SetupParsedSecure)
          else
            (.error (.UnsupportedRequest code), none)
      | _ => (.error .VerificationFailed, none)
    | none =>
      match s with
      | .SetupParsedSecure => (.ok (.Requesting (.Buffer 4)), some .MessageLen)
      | _ => (.error .VerificationFailed, none)

end ProcessM

/-! ## The frontend message decoder state machine (`src/message_decoder.rs`) -/

/-- `State` of `src/message_decoder.rs`. -/
inductive MDState where
  | RequestingTag
  | Tag (b : Nat)
  | WaitingForPayload
deriving DecidableEq, Repr

/-- `Status` of `src/message_decoder.rs`. -/
inductive MDStatus where
  | Requesting (n : Nat)
  | Done (m : FrontendMessage)
deriving DecidableEq, Repr

/-- `MessageDecoder`: the machine's `Option<State>` plus the remembered tag
(`u8`, default `0`). -/
structure MessageDecoder where
  state : Option MDState
  tag : Nat
deriving DecidableEq, Repr

/-- `MessageDecoder::default()`. -/
def MessageDecoder.default : MessageDecoder := { state := none, tag := 0 }

/-- `MessageDecoder::next_stage`.  `self.state` is `take`n at entry; in the
`Tag` arm Rust stores the tag and sets `WaitingForPayload` *before* the
fallible length read, so a short length buffer leaves the machine in
`WaitingForPayload`.  The requested payload size is
`(read_i32()? - 4) as usize` with release-mode wrapping. -/
def MessageDecoder.next_stage (d : MessageDecoder) (payload : Option (List Nat)) :
    Except MessageFormatError MDStatus × MessageDecoder :=
  let buf := payload.getD []
  match d.state with
  | none => (.ok (.Requesting 1), { d with state := some .RequestingTag })
  | some .RequestingTag =>
    match buf with
    | [] => (.error .MissingMessageTag, { d with state := none })
    | b :: _ => (.ok (.Requesting 4), { d with state := some (.Tag b) })
  | some (.Tag tag) =>
    match Cursor.read_i32 buf with
    | .error e => (.error (.Payload e), { state := some .WaitingForPayload, tag := tag })
    | .ok (len, _) =>
      (.ok (.Requesting (usizeOfI32 (wrapI32 (len - 4)))),
       { state := some .WaitingForPayload, tag := tag })
  | some .WaitingForPayload =>
    match decodeMessage d.tag buf with
    | .error e => (.error e, { d with state := none })
    | .ok m => (.ok (.Done m), { d with state := none })

/-! ## Connection receive (`src/connection/mod.rs`)

The transport stream is modelled as the list of bytes the peer will still
deliver; `read_exact` takes a prefix or fails with `UnexpectedEof` when too
few bytes remain (a closed socket keeps yielding EOF). -/

/-- The `io::ErrorKind` values the modelled transport can produce. -/
inductive IoErrorKind where
  | UnexpectedEof
deriving DecidableEq, Repr

/-- `read_exact` on the modelled stream. -/
def readExact (n : Nat) (stream : List Nat) :
    Except IoErrorKind (List Nat × List Nat) :=
  if stream.length < n then .error .UnexpectedEof
  else .ok (stream.take n, stream.drop n)

namespace Connection

/-- `Connection::read_frontend_message`: a fresh `MessageDecoder::default()`
driven over the stream.  The decoder's state advances strictly
(`None → RequestingTag → Tag → WaitingForPayload → Done`), so the Rust
`loop` performs exactly four `next_stage` calls with a `read_exact` between
consecutive ones; the model writes those four steps out.  Decoder errors
become `Ok(Err(()))`, transport errors propagate. -/
def read_frontend_message (stream : List Nat) :
    Except IoErrorKind (Except Unit FrontendMessage) × List Nat :=
  let d0 := MessageDecoder.default
  match MessageDecoder.next_stage d0 none with
  | (.error _, _) => (.ok (.error ()), stream)
  | (.ok (.Done m), _) => (.ok (.ok m), stream)
  | (.ok (.Requesting n1), d1) =>
    match readExact n1 stream with
    | .error e => (.error e, stream)
    | .ok (buf1, stream) =>
      match MessageDecoder.next_stage d1 (some buf1) with
      | (.error _, _) => (.ok (.error ()), stream)
      | (.ok (.Done m), _) => (.ok (.ok m), stream)
      | (.ok (.Requesting n2), d2) =>
        match readExact n2 stream with
        | .error e => (.error e, stream)
        | .ok (buf2, stream) =>
          match MessageDecoder.next_stage d2 (some buf2) with
          | (.error _, _) => (.ok (.error ()), stream)
          | (.ok (.Done m), _) => (.ok (.ok m), stream)
          | (.ok (.Requesting n3), d3) =>
            match readExact n3 stream with
            | .error e => (.error e, stream)
            | .ok (buf3, stream) =>
              match MessageDecoder.next_stage d3 (some buf3) with
              | (.error _, _) => (.ok (.error ()), stream)
              | (.ok (.Done m), _) => (.ok (.ok m), stream)
              | (.ok (.Requesting _), _) => (.ok (.error ()), stream)

/-- `Connection::receive`: `read_frontend_message` with `UnexpectedEof`
translated to a `Terminate` command. -/
def receive (stream : List Nat) :
    Except IoErrorKind (Except Unit FrontendMessage) × List Nat :=
  match read_frontend_message stream with
  | (.ok r, s) => (.ok r, s)
  | (.error .UnexpectedEof, s) => (.ok (.ok .Terminate), s)

end Connection

/-! ## The connection supervisor (`src/connection/mod.rs`)

`ConnSupervisorInner` holds the allocator state; `rand::thread_rng().gen()`
is modelled as an oracle argument to `alloc`.  The Rust `HashMap` is an
association list whose insert replaces and whose remove deletes the key. -/

/-- `HashMap::get` on the association-list model. -/
def mapLookup : List (Int × Int) → Int → Option Int
  | [], _ => none
  | (k, v) :: rest, key => if k = key then some v else mapLookup rest key

/-- `HashMap::remove` on the association-list model: drop every binding of
the key (a `HashMap` holds at most one). -/
def mapRemove : List (Int × Int) → Int → List (Int × Int)
  | [], _ => []
  | (k, v) :: rest, key =>
    if k = key then mapRemove rest key else (k, v) :: mapRemove rest key

/-- `HashMap::insert` on the association-list model (replaces any previous
binding of the key). -/
def mapInsert (m : List (Int × Int)) (key v : Int) : List (Int × Int) :=
  (key, v) :: mapRemove m key

/-- `ConnSupervisorInner`. -/
structure ConnSupervisorInner where
  next_id : Int
  max_id : Int
  free_ids : List Int
  current_mapping : List (Int × Int)
deriving DecidableEq, Repr

namespace ConnSupervisorInner

/-- `ConnSupervisorInner::new`. -/
def new (min_id max_id : Int) : ConnSupervisorInner :=
  { next_id := min_id, max_id := max_id, free_ids := [], current_mapping := [] }

/-- `ConnSupervisorInner::generate_conn_id`: pop the free list, else take
`next_id` unless it exceeds `max_id`. -/
def generate_conn_id (s : ConnSupervisorInner) :
    Except Unit (Int × ConnSupervisorInner) :=
  match s.free_ids with
  | id :: rest => .ok (id, { s with free_ids := rest })
  | [] =>
    if s.next_id > s.max_id then .error ()
    else .ok (s.next_id, { s with next_id := s.next_id + 1 })

/-- `ConnSupervisorInner::alloc`; `secret_key` is the random value drawn
from the thread RNG. -/
def alloc (s : ConnSupervisorInner) (secret_key : Int) :
    Except Unit ((Int × Int) × ConnSupervisorInner) :=
  match s.generate_conn_id with
  | .error e => .error e
  | .ok (conn_id, s1) =>
    .ok ((conn_id, secret_key),
      { s1 with current_mapping := mapInsert s1.current_mapping conn_id secret_key })

/-- `ConnSupervisorInner::free`: remove from the live mapping (if present)
and push onto the back of the free list. -/
def free (s : ConnSupervisorInner) (conn_id : Int) : ConnSupervisorInner :=
  if (mapLookup s.current_mapping conn_id).isSome then
    { s with current_mapping := mapRemove s.current_mapping conn_id,
             free_ids := s.free_ids ++ [conn_id] }
  else s

/-- `ConnSupervisorInner::verify`. -/
def verify (s : ConnSupervisorInner) (conn_id secret_key : Int) : Bool :=
  match mapLookup s.current_mapping conn_id with
  | some stored => stored = secret_key
  | none => false

end ConnSupervisorInner

/-- A supervisor operation: `alloc` with the oracle random key, or `free`
(`verify` is read-only and does not change the state). -/
inductive SupOp where
  | alloc (secret_key : Int)
  | free (conn_id : Int)
deriving DecidableEq, Repr

/-- Apply one supervisor operation (a failed `alloc` leaves the state
unchanged). -/
def supStep (s : ConnSupervisorInner) : SupOp → ConnSupervisorInner
  | .alloc k =>
    match s.alloc k with
    | .ok (_, s1) => s1
    | .error _ => s
  | .free id => s.free id

/-- Run a list of supervisor operations. -/
def supRun (s : ConnSupervisorInner) (ops : List SupOp) : ConnSupervisorInner :=
  ops.foldl supStep s

/-- Does some `alloc` along the run of `ops` from `s` return (re-issue) the
connection id `id`? -/
def reissues (s : ConnSupervisorInner) (id : Int) : List SupOp → Bool
  | [] => false
  | op :: rest =>
    match op with
    | .alloc k =>
      match s.alloc k with
      | .ok ((cid, _), s1) => cid = id || reissues s1 id rest
      | .error _ => reissues s id rest
    | .free fid => reissues (s.free fid) id rest

/-- The length field an encoded backend message declares: its second
through fifth bytes as a big-endian `i32`. -/
def declaredLength (bs : List Nat) : Int := beI32 bs.tail

/-- The framing property claimed of encoded backend messages: at least one
tag byte plus a four-byte length field, the declared `i32` length counting
every byte after the tag (total length minus one) and being at least `4`. -/
def framedOk (bs : List Nat) : Prop :=
  5 ≤ bs.length ∧ declaredLength bs = (bs.length : Int) - 1 ∧ 4 ≤ declaredLength bs

instance (bs : List Nat) : Decidable (framedOk bs) := by
  unfold framedOk
  infer_instance

/-! ## Supporting lemmas -/

theorem i16ToBeBytes_length (x : Int) : (i16ToBeBytes x).length = 2 := rfl

theorem i32ToBeBytes_length (x : Int) : (i32ToBeBytes x).length = 4 := rfl

theorem i64ToBeBytes_length (x : Int) : (i64ToBeBytes x).length = 8 := rfl

theorem u32ToBeBytes_length (n : Nat) : (u32ToBeBytes n).length = 4 := rfl

theorem lowBits_lt (w : Nat) (x : Int) : lowBits w x < 2 ^ w := by
  have h2 : (0 : Int) < (2 ^ w : Nat) := by positivity
  have := Int.emod_lt_of_pos x h2
  have h0 : 0 ≤ x % (2 ^ w : Nat) := Int.emod_nonneg x (by positivity)
  unfold lowBits
  omega

theorem lowBits_of_range {w : Nat} {x : Int} (h0 : 0 ≤ x) (h1 : x < 2 ^ w) :
    lowBits w x = x.toNat := by
  unfold lowBits
  rw [Int.emod_eq_of_lt h0 (by exact_mod_cast h1)]

theorem toSigned_of_lt {w : Nat} {n : Nat} (h : n < 2 ^ (w - 1)) :
    toSigned w n = n := by
  unfold toSigned
  simp [h]

/-- Recomposing the four big-endian bytes of `n < 2^32` recovers `n`. -/
theorem beNat_be4 (n : Nat) (h : n < 2 ^ 32) :
    beNat [n / 2 ^ 24 % 256, n / 2 ^ 16 % 256, n / 2 ^ 8 % 256, n % 256] = n := by
  simp only [beNat, List.length]
  norm_num
  omega

/-- Recomposing the two big-endian bytes of `n < 2^16` recovers `n`. -/
theorem beNat_be2 (n : Nat) (h : n < 2 ^ 16) :
    beNat [n / 2 ^ 8 % 256, n % 256] = n := by
  simp only [beNat, List.length]
  norm_num
  omega

/-- Recomposing the eight big-endian bytes of `n < 2^64` recovers `n`. -/
theorem beNat_be8 (n : Nat) (h : n < 2 ^ 64) :
    beNat [n / 2 ^ 56 % 256, n / 2 ^ 48 % 256, n / 2 ^ 40 % 256,
           n / 2 ^ 32 % 256, n / 2 ^ 24 % 256, n / 2 ^ 16 % 256,
           n / 2 ^ 8 % 256, n % 256] = n := by
  simp only [beNat, List.length]
  norm_num
  omega

theorem lowBits_as_emod (w : Nat) (x : Int) :
    (lowBits w x : Int) = x % ((2 : Int) ^ w) := by
  have h2 : (0 : Int) ≤ x % (2 ^ w : Nat) := Int.emod_nonneg x (by positivity)
  unfold lowBits
  rw [Int.toNat_of_nonneg h2]
  norm_num

theorem beI32_i32ToBeBytes (x : Int) (h0 : -2 ^ 31 ≤ x) (h1 : x < 2 ^ 31) :
    beI32 (i32ToBeBytes x) = x := by
  unfold beI32 i32ToBeBytes
  have hlt : lowBits 32 x < 2 ^ 32 := lowBits_lt 32 x
  simp only [List.take]
  rw [beNat_be4 _ hlt]
  have hdef : (lowBits 32 x : Int) = x % ((2 : Int) ^ 32) := lowBits_as_emod 32 x
  have hmod0 : (0 : Int) ≤ x % ((2 : Int) ^ 32) := Int.emod_nonneg x (by positivity)
  have hmodlt : x % ((2 : Int) ^ 32) < (2 : Int) ^ 32 := Int.emod_lt_of_pos x (by positivity)
  have hx : x % ((2 : Int) ^ 32) = x ∨ x % ((2 : Int) ^ 32) = x + 2 ^ 32 := by
    rcases le_or_lt 0 x with hc | hc
    · left; exact Int.emod_eq_of_lt hc (by norm_num at h1 ⊢; omega)
    · right
      have : (x + 2 ^ 32) % ((2 : Int) ^ 32) = x % ((2 : Int) ^ 32) := by
        exact Int.add_mul_emod_self_left (a := x) (b := (2 : Int) ^ 32) (c := 1) ▸ by ring_nf
      rw [← this, Int.emod_eq_of_lt (by norm_num at h0 ⊢; omega) (by norm_num at hc ⊢; omega)]
  unfold toSigned
  split
  · rename_i hc
    norm_num at h0 h1 hc hdef hx ⊢
    omega
  · rename_i hc
    norm_num at h0 h1 hc hdef hx ⊢
    omega

/-- Generic two's-complement round trip:
a `w`-bit value in range survives truncation and reinterpretation. -/
theorem toSigned_lowBits {w : Nat} (hw : 1 ≤ w) (x : Int)
    (h0 : -2 ^ (w - 1) ≤ x) (h1 : x < 2 ^ (w - 1)) :
    toSigned w (lowBits w x) = x := by
  have hdef : (lowBits w x : Int) = x % ((2 : Int) ^ w) := lowBits_as_emod w x
  have hpow : (2 : Int) ^ w = 2 ^ (w - 1) * 2 := by
    conv_lhs => rw [show w = (w - 1) + 1 by omega]
    ring
  have hx : x % ((2 : Int) ^ w) = x ∨ x % ((2 : Int) ^ w) = x + 2 ^ w := by
    rcases le_or_lt 0 x with hc | hc
    · left
      exact Int.emod_eq_of_lt hc (by nlinarith [pow_pos (show (0:Int) < 2 by norm_num) (w - 1)])
    · right
      have heq : (x + 2 ^ w) % ((2 : Int) ^ w) = x % ((2 : Int) ^ w) := by
        exact Int.add_mul_emod_self_left (a := x) (b := (2 : Int) ^ w) (c := 1) ▸ by ring_nf
      rw [← heq, Int.emod_eq_of_lt (by nlinarith) (by nlinarith)]
  have hhalf : (0 : Int) < 2 ^ (w - 1) := pow_pos (by norm_num) _
  unfold toSigned
  have hcast : ((2 ^ (w - 1) : Nat) : Int) = (2 : Int) ^ (w - 1) := by push_cast; rfl
  split
  · rename_i hc
    have hc' : (lowBits w x : Int) < (2 : Int) ^ (w - 1) := by
      calc (lowBits w x : Int) < ((2 ^ (w - 1) : Nat) : Int) := by exact_mod_cast hc
        _ = _ := hcast
    rcases hx with h | h
    · rw [hdef, h]
    · exfalso
      rw [hdef, h] at hc'
      linarith
  · rename_i hc
    have hc' : (2 : Int) ^ (w - 1) ≤ (lowBits w x : Int) := by
      rw [← hcast]
      exact_mod_cast not_lt.mp hc
    rcases hx with h | h
    · exfalso
      rw [hdef, h] at hc'
      linarith
    · rw [hdef, h]
      ring

theorem beI16_i16ToBeBytes (x : Int) (h0 : -2 ^ 15 ≤ x) (h1 : x < 2 ^ 15) :
    beI16 (i16ToBeBytes x) = x := by
  unfold beI16 i16ToBeBytes
  simp only [List.take]
  rw [beNat_be2 _ (lowBits_lt 16 x)]
  exact toSigned_lowBits (by norm_num) x h0 h1

theorem beI64_i64ToBeBytes (x : Int) (h0 : -2 ^ 63 ≤ x) (h1 : x < 2 ^ 63) :
    beI64 (i64ToBeBytes x) = x := by
  unfold beI64 i64ToBeBytes
  simp only [List.take]
  rw [beNat_be8 _ (lowBits_lt 64 x)]
  exact toSigned_lowBits (by norm_num) x h0 h1

theorem beI32_append (x : Int) (rest : List Nat) :
    beI32 (i32ToBeBytes x ++ rest) = beI32 (i32ToBeBytes x) := by
  unfold beI32
  congr 1

/-- Appending does not change the first four bytes read. -/
theorem take4_append (x : Int) (rest : List Nat) :
    (i32ToBeBytes x ++ rest).take 4 = i32ToBeBytes x := by
  unfold i32ToBeBytes
  rfl

theorem utf8DecodeF_ascii_cons (f b : Nat) (rest : List Nat) (hb : b < 0x80) :
    utf8DecodeF (f + 1) (b :: rest) = (utf8DecodeF f rest).map (b :: ·) := by
  show (if b < 0x80 then (utf8DecodeF f rest).map (b :: ·) else
    if b < 0xC2 then none
    else if b ≤ 0xDF then
      match rest with
      | c1 :: rest1 =>
        if isCont c1 then (utf8DecodeF f rest1).map (cp2 b c1 :: ·) else none
      | [] => none
    else if b ≤ 0xEF then
      match rest with
      | c1 :: c2 :: rest2 =>
        if snd3ok b c1 && isCont c2 then
          (utf8DecodeF f rest2).map (cp3 b c1 c2 :: ·)
        else none
      | _ => none
    else if b ≤ 0xF4 then
      match rest with
      | c1 :: c2 :: c3 :: rest3 =>
        if snd4ok b c1 && isCont c2 && isCont c3 then
          (utf8DecodeF f rest3).map (cp4 b c1 c2 c3 :: ·)
        else none
      | _ => none
    else none) = (utf8DecodeF f rest).map (b :: ·)
  rw [if_pos hb]

/-- Pure-ASCII byte lists decode to themselves. -/
theorem utf8Decode_ascii {bs : List Nat} (h : ∀ b ∈ bs, b < 0x80) :
    utf8Decode bs = some bs := by
  unfold utf8Decode
  induction bs with
  | nil => rfl
  | cons b rest ih =>
    have hb : b < 0x80 := h b (by simp)
    have hrest : utf8DecodeF rest.length rest = some rest :=
      ih (fun x hx => h x (by simp [hx]))
    simp only [List.length_cons]
    rw [utf8DecodeF_ascii_cons _ _ _ hb, hrest]
    rfl

theorem Cursor.splitAtZero_shrinks :
    ∀ {bs pre post : List Nat}, Cursor.splitAtZero bs = some (pre, post) →
      post.length < bs.length := by
  intro bs
  induction bs with
  | nil => intro pre post h; simp [Cursor.splitAtZero] at h
  | cons b rest ih =>
    intro pre post h
    cases b with
    | zero =>
      simp [Cursor.splitAtZero] at h
      simp [← h.2]
    | succ n =>
      simp only [Cursor.splitAtZero] at h
      cases hsp : Cursor.splitAtZero rest with
      | none => rw [hsp] at h; exact absurd h (by simp)
      | some pr =>
        rw [hsp] at h
        obtain ⟨p, q⟩ := pr
        have h2 : ((n + 1 : Nat) :: p, q) = (pre, post) := by simpa using h
        cases h2
        have := ih hsp
        simp only [List.length_cons]
        omega

/-- `Cursor.read_cstr` consumes at least one byte. -/
theorem Cursor.read_cstr_shrinks {bs s rest : List Nat}
    (h : Cursor.read_cstr bs = .ok (s, rest)) : rest.length < bs.length := by
  unfold Cursor.read_cstr at h
  cases hsp : Cursor.splitAtZero bs with
  | none => rw [hsp] at h; exact absurd h (by simp)
  | some pr =>
    rw [hsp] at h
    obtain ⟨pre, post⟩ := pr
    by_cases hv : utf8Valid pre
    · simp [hv] at h
      rw [← h.2]
      exact splitAtZero_shrinks hsp
    · simp [hv] at h

/-! ## Claim C1: backend message framing -/

theorem framedOk_mk (tag : Nat) (x : Int) (body : List Nat)
    (hx : x = 4 + (body.length : Int)) (hbound : (body.length : Int) + 4 < 2 ^ 31) :
    framedOk (tag :: (i32ToBeBytes x ++ body)) := by
  have hlen : (0 : Int) ≤ (body.length : Int) := Int.ofNat_nonneg _
  have h0 : -2 ^ 31 ≤ x := by omega
  have h1 : x < 2 ^ 31 := by omega
  have hdecl : declaredLength (tag :: (i32ToBeBytes x ++ body)) = x := by
    unfold declaredLength
    simp only [List.tail_cons]
    rw [beI32_append, beI32_i32ToBeBytes x h0 h1]
  refine ⟨?_, ?_, ?_⟩
  · simp [i32ToBeBytes_length]
  · rw [hdecl]
    simp only [List.length_cons, List.length_append, i32ToBeBytes_length]
    push_cast
    omega
  · rw [hdecl]; omega

/-- C1, counterexample: `NoticeResponse` encodes to the single tag byte
`[0x4E]` with no length field at all, so the claimed framing property fails
on it. -/
theorem noticeResponse_not_framed :
    ¬ framedOk (BackendMessage.as_vec .NoticeResponse) := by decide

/-- C1 (amended): every encoded backend message other than `NoticeResponse`
(and small enough that its byte count fits the `i32` length field, which
Rust narrows with a wrapping cast) consists of a one-byte tag followed by a
big-endian `i32` length field whose declared value equals
`len(bytes(M)) - 1` and is at least `4`. -/
theorem backendMessage_framing (M : BackendMessage) (hM : M ≠ .NoticeResponse)
    (hsize : (BackendMessage.as_vec M).length ≤ 2 ^ 31) :
    framedOk (BackendMessage.as_vec M) := by
  cases M with
  | NoticeResponse => exact absurd rfl hM
  | AuthenticationCleartextPassword => decide
  | AuthenticationMD5Password => decide
  | AuthenticationOk => decide
  | ReadyForQuery => decide
  | EmptyQueryResponse => decide
  | NoData => decide
  | ParseComplete => decide
  | BindComplete => decide
  | CloseComplete => decide
  | BackendKeyData cid key =>
    have h12 : i32ToBeBytes 12 = [0, 0, 0, 12] := by decide
    have hshape : BackendMessage.as_vec (.BackendKeyData cid key) =
        BACKEND_KEY_DATA :: (i32ToBeBytes 12 ++ (i32ToBeBytes cid ++ i32ToBeBytes key)) := by
      rw [h12]; rfl
    rw [hshape]
    exact framedOk_mk _ _ _ (by simp [i32ToBeBytes_length]) (by norm_num [i32ToBeBytes_length])
  | DataRow row =>
    have hshape : BackendMessage.as_vec (.DataRow row) =
        DATA_ROW :: (i32ToBeBytes (6 + Int.ofNat (dataRowBody row).length) ++
          (i16ToBeBytes (Int.ofNat row.length) ++ dataRowBody row)) := rfl
    rw [hshape] at hsize ⊢
    simp only [List.length_cons, List.length_append, i32ToBeBytes_length,
      i16ToBeBytes_length] at hsize
    refine framedOk_mk _ _ _ ?_ ?_
    · simp only [List.length_append, i16ToBeBytes_length, Int.ofNat_eq_coe]
      push_cast
      omega
    · simp only [List.length_append, i16ToBeBytes_length]
      push_cast at hsize ⊢
      omega
  | RowDescription description =>
    have hshape : BackendMessage.as_vec (.RowDescription description) =
        ROW_DESCRIPTION :: (i32ToBeBytes (6 + Int.ofNat (rowDescriptionBody description).length) ++
          (i16ToBeBytes (Int.ofNat description.length) ++ rowDescriptionBody description)) := rfl
    rw [hshape] at hsize ⊢
    simp only [List.length_cons, List.length_append, i32ToBeBytes_length,
      i16ToBeBytes_length] at hsize
    refine framedOk_mk _ _ _ ?_ ?_
    · simp only [List.length_append, i16ToBeBytes_length, Int.ofNat_eq_coe]
      push_cast
      omega
    · simp only [List.length_append, i16ToBeBytes_length]
      push_cast at hsize ⊢
      omega
  | CommandComplete command =>
    have hshape : BackendMessage.as_vec (.CommandComplete command) =
        COMMAND_COMPLETE :: (i32ToBeBytes (4 + Int.ofNat command.length + 1) ++
          (command ++ [0])) := rfl
    rw [hshape] at hsize ⊢
    simp only [List.length_cons, List.length_append, List.length_nil,
      i32ToBeBytes_length] at hsize
    refine framedOk_mk _ _ _ ?_ ?_
    · simp only [List.length_append, List.length_cons, List.length_nil, Int.ofNat_eq_coe]
      push_cast
      omega
    · simp only [List.length_append, List.length_cons, List.length_nil]
      push_cast at hsize ⊢
      omega
  | ErrorResponse severity code message =>
    have hshape : BackendMessage.as_vec (.ErrorResponse severity code message) =
        ERROR_RESPONSE :: (i32ToBeBytes (Int.ofNat (optField SEVERITY severity ++
            optField CODE code ++ optField MESSAGE message).length + 4 + 1) ++
          ((optField SEVERITY severity ++ optField CODE code ++ optField MESSAGE message) ++
            [0])) := rfl
    rw [hshape] at hsize ⊢
    simp only [List.length_cons, List.length_append, List.length_nil,
      i32ToBeBytes_length] at hsize
    refine framedOk_mk _ _ _ ?_ ?_
    · simp only [List.length_append, List.length_cons, List.length_nil, Int.ofNat_eq_coe]
      push_cast
      omega
    · simp only [List.length_append, List.length_cons, List.length_nil]
      push_cast at hsize ⊢
      omega
  | ParameterStatus name value =>
    have hshape : BackendMessage.as_vec (.ParameterStatus name value) =
        PARAMETER_STATUS :: (i32ToBeBytes (Int.ofNat (4 +
            (name ++ [0] ++ value ++ [0]).length)) ++
          (name ++ [0] ++ value ++ [0])) := rfl
    rw [hshape] at hsize ⊢
    simp only [List.length_cons, List.length_append, List.length_nil,
      i32ToBeBytes_length] at hsize
    refine framedOk_mk _ _ _ ?_ ?_
    · simp only [List.length_append, List.length_cons, List.length_nil, Int.ofNat_eq_coe]
      push_cast
      omega
    · simp only [List.length_append, List.length_cons, List.length_nil]
      push_cast at hsize ⊢
      omega
  | ParameterDescription pg_types =>
    have hshape : BackendMessage.as_vec (.ParameterDescription pg_types) =
        PARAMETER_DESCRIPTION :: (i32ToBeBytes (6 + Int.ofNat (paramDescBody pg_types).length) ++
          (i16ToBeBytes (Int.ofNat pg_types.length) ++ paramDescBody pg_types)) := rfl
    rw [hshape] at hsize ⊢
    simp only [List.length_cons, List.length_append, i32ToBeBytes_length,
      i16ToBeBytes_length] at hsize
    refine framedOk_mk _ _ _ ?_ ?_
    · simp only [List.length_append, i16ToBeBytes_length, Int.ofNat_eq_coe]
      push_cast
      omega
    · simp only [List.length_append, i16ToBeBytes_length]
      push_cast at hsize ⊢
      omega

/-- C1, witness: the amended framing theorem applied to `AuthenticationOk`. -/
theorem backendMessage_framing_witness :
    framedOk (BackendMessage.as_vec .AuthenticationOk) :=
  backendMessage_framing .AuthenticationOk (by decide) (by decide)

/-! ## Further supporting lemmas: cursor reads on structured buffers -/

theorem wrapI32_of_range {x : Int} (h0 : -2 ^ 31 ≤ x) (h1 : x < 2 ^ 31) :
    wrapI32 x = x :=
  toSigned_lowBits (by norm_num) x h0 h1

theorem wrapI16_of_range {x : Int} (h0 : -2 ^ 15 ≤ x) (h1 : x < 2 ^ 15) :
    wrapI16 x = x :=
  toSigned_lowBits (by norm_num) x h0 h1

theorem usizeOfI32_neg {x : Int} (h0 : -2 ^ 63 ≤ x) (h1 : x < 0) :
    usizeOfI32 x = (x + 2 ^ 64).toNat := by
  unfold usizeOfI32
  have hdef : (lowBits 64 x : Int) = x % ((2 : Int) ^ 64) := lowBits_as_emod 64 x
  have hpow : ((2 : Int) ^ 64) = 18446744073709551616 := by norm_num
  have h0' : (-18446744073709551616 : Int) ≤ x := by omega
  rw [hpow] at hdef
  omega

theorem read_cstr_zero (X : List Nat) : Cursor.read_cstr (0 :: X) = .ok ([], X) := rfl

theorem read_i16_cons2 (a b : Nat) (X : List Nat) :
    Cursor.read_i16 (a :: b :: X) = .ok (beI16 [a, b], X) := by
  unfold Cursor.read_i16
  rw [if_neg (by simp)]
  rfl

theorem read_i32_cons4 (a b c d : Nat) (X : List Nat) :
    Cursor.read_i32 (a :: b :: c :: d :: X) = .ok (beI32 [a, b, c, d], X) := by
  unfold Cursor.read_i32
  rw [if_neg (by simp)]
  rfl

theorem read_i32_bytes (x : Int) (X : List Nat) (h0 : -2 ^ 31 ≤ x) (h1 : x < 2 ^ 31) :
    Cursor.read_i32 (i32ToBeBytes x ++ X) = .ok (x, X) := by
  unfold Cursor.read_i32
  rw [if_neg (by simp [i32ToBeBytes_length])]
  have hv : beI32 (i32ToBeBytes x ++ X) = x := by
    rw [beI32_append, beI32_i32ToBeBytes x h0 h1]
  rw [hv]
  have hd : (i32ToBeBytes x ++ X).drop 4 = X := by
    rw [show (4 : Nat) = (i32ToBeBytes x).length from (i32ToBeBytes_length x).symm]
    exact List.drop_left _ _
  rw [hd]

/-! ## Claim C3: the startup happy-path scenario -/

/-- C3, counterexample: the run exactly as the claim words it — length
`[0x00,0x00,0x00,0x21]`, then body `[0x00,0x00,0x00,0x03]` followed by
`"user\0alice\0database\0db\0\0"` — does not end in `Done`: the four body
bytes are the request code `3`, not `VERSION_3_CODE = 0x0003_0000`, so the
machine answers `UnsupportedClientRequest(3)`. -/
theorem handshake_s1_as_claimed_fails :
    (let s1 := Process.next_stage none none
     let s2 := Process.next_stage s1.2 (some [0x00, 0x00, 0x00, 0x21])
     let s3 := Process.next_stage s2.2 (some ([0x00, 0x00, 0x00, 0x03] ++
       [117, 115, 101, 114, 0] ++ [97, 108, 105, 99, 101, 0] ++
       [100, 97, 116, 97, 98, 97, 115, 101, 0] ++ [100, 98, 0] ++ [0]))
     s3.1 = .error (.UnsupportedClientRequest 3) ∧
       s3.1 ≠ .ok (.Done [([117, 115, 101, 114], [97, 108, 105, 99, 101]),
         ([100, 97, 116, 97, 98, 97, 115, 101], [100, 98])])) := by decide

/-- C3 (amended): with the version-3 request code spelled in its real wire
encoding `[0x00,0x03,0x00,0x00]`, the run — no input, then the 4 length
bytes `[0x00,0x00,0x00,0x21]` (33), then the 29-byte body — requests 4 and
then 29 bytes and ends in `Done([("user","alice"),("database","db")])`. -/
theorem handshake_startup_v3_happy_path :
    (let s1 := Process.next_stage none none
     let s2 := Process.next_stage s1.2 (some [0x00, 0x00, 0x00, 0x21])
     let s3 := Process.next_stage s2.2 (some ([0x00, 0x03, 0x00, 0x00] ++
       [117, 115, 101, 114, 0] ++ [97, 108, 105, 99, 101, 0] ++
       [100, 97, 116, 97, 98, 97, 115, 101, 0] ++ [100, 98, 0] ++ [0]))
     s1.1 = .ok (.RequestingBytes 4) ∧ s2.1 = .ok (.RequestingBytes 29) ∧
       s3.1 = .ok (.Done [([117, 115, 101, 114], [97, 108, 105, 99, 101]),
         ([100, 97, 116, 97, 98, 97, 115, 101], [100, 98])])) := by decide

/-! ## Claim C4: zero-filled RowDescription columns -/

/-- C4, counterexample: encoding `RowDescription([("c1", Integer)])` puts
`255,255,255,255` — the two's-complement `-1i32`, not zero — in the
type-modifier field (bytes 22..25 of the 28-byte message). -/
theorem rowDescription_modifier_not_zero :
    BackendMessage.as_vec (.RowDescription [ColumnMetadata.new [99, 49] .Integer]) =
      [84, 0, 0, 0, 27, 0, 1, 99, 49, 0, 0, 0, 0, 0, 0, 0, 0, 0, 0, 23, 0, 4,
       255, 255, 255, 255, 0, 0] ∧
    ((BackendMessage.as_vec
      (.RowDescription [ColumnMetadata.new [99, 49] .Integer])).drop 22).take 4 ≠
      [0, 0, 0, 0] := by decide

/-- C4 (amended): in every encoded `RowDescription`, each column block is
the name as a C string, then a zero-filled table OID (`i32`), a zero-filled
column index (`i16`), the type OID and size, a type modifier filled with
`-1` (bytes `255,255,255,255`, not zero), and a zero-filled result format
(`i16`). -/
theorem rowDescription_fields_filled (description : List ColumnMetadata) :
    BackendMessage.as_vec (.RowDescription description) =
      ROW_DESCRIPTION :: i32ToBeBytes (6 + Int.ofNat (rowDescriptionBody description).length) ++
        i16ToBeBytes (Int.ofNat description.length) ++ rowDescriptionBody description ∧
    rowDescriptionBody description =
      (description.map (fun f =>
        f.name ++ [0] ++ [0, 0, 0, 0] ++ [0, 0] ++ u32ToBeBytes f.type_id ++
        i16ToBeBytes f.type_size ++ [255, 255, 255, 255] ++ [0, 0])).join := by
  refine ⟨rfl, ?_⟩
  induction description with
  | nil => rfl
  | cons f rest ih =>
    have hz32 : i32ToBeBytes 0 = [0, 0, 0, 0] := by decide
    have hz16 : i16ToBeBytes 0 = [0, 0] := by decide
    have hm : i32ToBeBytes (-1) = [255, 255, 255, 255] := by decide
    show rowDescriptionBody (f :: rest) = _
    rw [rowDescriptionBody, ih, List.map_cons, List.join, hz32, hz16, hm]
    simp [List.append_assoc]

/-! ## Claim C5: at most one SSL upgrade -/

/-- C5, counterexample: a client that sends two SSL requests does not get
an error from either handshake implementation.  In `src/hand_shake/mod.rs`
the second request (reached through the legal rearm after an upgrade)
answers `Requesting(UpgradeToSsl)` again; in `src/hand_shake.rs` the second
request answers `UpdatingToSecureWithReadingBytes(4)` again. -/
theorem handshake_double_ssl_not_error :
    (let s1 := ProcessM.next_stage none none
     let s2 := ProcessM.next_stage s1.2 (some [0, 0, 0, 8])
     let s3 := ProcessM.next_stage s2.2 (some (i32ToBeBytes SSL_REQUEST_CODE))
     let s4 := ProcessM.next_stage s3.2 none
     let s5 := ProcessM.next_stage s4.2 (some [0, 0, 0, 8])
     let s6 := ProcessM.next_stage s5.2 (some (i32ToBeBytes SSL_REQUEST_CODE))
     s3.1 = .ok (.Requesting .UpgradeToSsl) ∧
       s6.1 = .ok (.Requesting .UpgradeToSsl)) ∧
    (let t1 := Process.next_stage none none
     let t2 := Process.next_stage t1.2 (some [0, 0, 0, 8])
     let t3 := Process.next_stage t2.2 (some (i32ToBeBytes SSL_REQUEST_CODE))
     let t4 := Process.next_stage t3.2 (some [0, 0, 0, 8])
     let t5 := Process.next_stage t4.2 (some (i32ToBeBytes SSL_REQUEST_CODE))
     t3.1 = .ok (.UpdatingToSecureWithReadingBytes 4) ∧
       t5.1 = .ok (.UpdatingToSecureWithReadingBytes 4)) := by decide

/-- C5 (amended): after the startup message the `src/hand_shake/mod.rs`
machine rejects any further payload — in particular an SSL request — with
`VerificationFailed`; but a second SSL request before startup is not
rejected: reached through the legal rearm path it is accepted and answers
another `Requesting(UpgradeToSsl)`. -/
theorem handshake_ssl_after_startup_rejected :
    (∀ (props : List (List Nat × List Nat)) (bytes : List Nat),
      ProcessM.next_stage (some (.SetupParsedEstablished props)) (some bytes) =
        (.error .VerificationFailed, none)) ∧
    (let s4 := ProcessM.next_stage (some .SetupParsedSecure) none
     let s5 := ProcessM.next_stage s4.2 (some [0, 0, 0, 8])
     let s6 := ProcessM.next_stage s5.2 (some (i32ToBeBytes SSL_REQUEST_CODE))
     s6.1 = .ok (.Requesting .UpgradeToSsl)) :=
  ⟨fun _ _ => rfl, by decide⟩

/-! ## Claim C6: UnexpectedEof becomes Terminate -/

/-- C6, counterexample: the EOF-to-`Terminate` translation does not happen
"exactly once" — `receive` holds no flag, so on a stream that hits EOF a
second `receive` call again returns `Terminate`, not the underlying I/O
error. -/
theorem receive_eof_twice_terminate :
    Connection.receive [] = (.ok (.ok .Terminate), []) ∧
    Connection.receive (Connection.receive []).2 = (.ok (.ok .Terminate), []) := by decide

/-- C6 (amended): whenever reading a command message fails with
`UnexpectedEof`, `Connection::receive` returns `CommandMessage::Terminate`
instead of the error; the translation is unconditional and stateless, so it
applies on every such call, not exactly once. -/
theorem receive_eof_terminate (stream : List Nat)
    (h : (Connection.read_frontend_message stream).1 = .error .UnexpectedEof) :
    (Connection.receive stream).1 = .ok (.ok .Terminate) := by
  unfold Connection.receive
  rcases hrm : Connection.read_frontend_message stream with ⟨r, s⟩
  rw [hrm] at h
  simp only at h
  cases r with
  | ok v => exact absurd h (by simp)
  | error e => cases e; rfl

/-- C6, witness: the empty stream hits EOF immediately and `receive`
answers `Terminate`. -/
theorem receive_eof_terminate_witness :
    (Connection.read_frontend_message []).1 = .error .UnexpectedEof ∧
    (Connection.receive []).1 = .ok (.ok .Terminate) :=
  ⟨by decide, receive_eof_terminate [] (by decide)⟩

/-! ## Claim C9: unchecked length-field subtraction -/

theorem mdNextStage_tag (t tag0 : Nat) (bs : List Nat) (x : Int) (rest : List Nat)
    (h : Cursor.read_i32 bs = .ok (x, rest)) :
    MessageDecoder.next_stage { state := some (.Tag t), tag := tag0 } (some bs) =
      (.ok (.Requesting (usizeOfI32 (wrapI32 (x - 4)))),
       { state := some .WaitingForPayload, tag := t }) := by
  simp only [MessageDecoder.next_stage, Option.getD_some, h]

theorem hsNextStage_len (bs : List Nat) (x : Int) (rest : List Nat)
    (h : Cursor.read_i32 bs = .ok (x, rest)) :
    Process.next_stage (some .MessageLen) (some bs) =
      (.ok (.RequestingBytes (usizeOfI32 (wrapI32 (x - 4)))), some .ParseSetup) := by
  simp only [Process.next_stage, h]

/-- C9: a 4-byte length field whose big-endian `i32` value `L` is below `4`
is not rejected: both the message decoder and the handshake machine answer
`Requesting` with `(L - 4) as usize`, which wraps modulo `2^64` to
`2^64 + L - 4`; for `L = 0` that is `2^64 - 4` requested bytes. -/
theorem length_underflow_wraps (L : Int) (h1 : -2 ^ 31 + 4 ≤ L) (h2 : L < 4) :
    (∀ t : Nat, MessageDecoder.next_stage { state := some (.Tag t), tag := 0 }
        (some (i32ToBeBytes L)) =
      (.ok (.Requesting ((L - 4 + 2 ^ 64).toNat)),
       { state := some .WaitingForPayload, tag := t })) ∧
    Process.next_stage (some .MessageLen) (some (i32ToBeBytes L)) =
      (.ok (.RequestingBytes ((L - 4 + 2 ^ 64).toNat)), some .ParseSetup) := by
  have hr : Cursor.read_i32 (i32ToBeBytes L ++ []) = .ok (L, []) :=
    read_i32_bytes L [] (by omega) (by omega)
  rw [List.append_nil] at hr
  have hw : wrapI32 (L - 4) = L - 4 := wrapI32_of_range (by omega) (by omega)
  have hu : usizeOfI32 (L - 4) = (L - 4 + 2 ^ 64).toNat :=
    usizeOfI32_neg (by omega) (by omega)
  constructor
  · intro t
    rw [mdNextStage_tag t 0 _ L [] hr, hw, hu]
  · rw [hsNextStage_len _ L [] hr, hw, hu]

/-- C9, witness: `L = 0` makes the decoder request `2^64 - 4` bytes. -/
theorem length_underflow_wraps_witness :
    Process.next_stage (some .MessageLen) (some (i32ToBeBytes 0)) =
      (.ok (.RequestingBytes (2 ^ 64 - 4)), some .ParseSetup) := by
  have h := (length_underflow_wraps 0 (by norm_num) (by norm_num)).2
  norm_num at h
  exact h

/-! ## Claim C10: negative Bind parameter lengths -/

/-- C10: in Bind decoding, a parameter whose declared `i32` length is
negative but different from `-1` decodes as `Some` of an empty byte vector
(`for _ in 0..len` runs zero times); only the length `-1` yields `None`;
no negative length is an error.  Shown on a Bind body with empty portal
and statement names, no formats, and one parameter of declared length `len`. -/
theorem bind_negative_length_empty_param (len : Int)
    (hlo : -2 ^ 31 ≤ len) (hneg : len < 0) (hne : len ≠ -1) :
    decode_bind ([0, 0, 0, 0, 0, 1] ++ i32ToBeBytes len ++ [0, 0]) =
      .ok (.Bind [] [] [] [some []] []) ∧
    decode_bind ([0, 0, 0, 0, 0, 1] ++ i32ToBeBytes (-1) ++ [0, 0]) =
      .ok (.Bind [] [] [] [none] []) := by
  constructor
  · have hr : Cursor.read_i32 (i32ToBeBytes len ++ [0, 0]) = .ok (len, [0, 0]) :=
      read_i32_bytes len [0, 0] hlo (by omega)
    have hz : len.toNat = 0 := by omega
    have h16a : Cursor.read_i16 (0 :: 0 :: (0 :: 1 :: (i32ToBeBytes len ++ [0, 0]))) =
        .ok (0, 0 :: 1 :: (i32ToBeBytes len ++ [0, 0])) := by
      rw [read_i16_cons2]
      norm_num [beI16, beNat, toSigned]
    have h16b : Cursor.read_i16 (0 :: 1 :: (i32ToBeBytes len ++ [0, 0])) =
        .ok (1, i32ToBeBytes len ++ [0, 0]) := by
      rw [read_i16_cons2]
      norm_num [beI16, beNat, toSigned]
    have h16c : Cursor.read_i16 ([0, 0] : List Nat) = .ok (0, []) := by decide
    simp only [List.cons_append, List.nil_append] at hr h16a h16b ⊢
    simp only [decode_bind, liftC, read_cstr_zero, h16a, h16b, h16c, hr, hz,
      readFormats, readRawParams, readBytesN, if_neg hne, bind, Except.bind, Except.map,
      Int.toNat_zero, Int.toNat_one]
  · decide

/-! ## Claim C8: binary decoding of SmallInt and Integer -/

/-- C8: decoding `SmallInt` or `Integer` in binary format fails with a
`NotEnoughBytes` error exactly when the input holds fewer than 4 bytes;
otherwise the first four bytes are read as a big-endian `i32`, which is the
result for `Integer` and is truncated to `i16` (low 16 bits, signed) for
`SmallInt`. -/
theorem int_binary_decode (b0 b1 b2 b3 : Nat) (rest : List Nat) :
    (PgType.decode .Integer .Binary (b0 :: b1 :: b2 :: b3 :: rest) =
        .ok (.Int32 (toSigned 32 (beNat [b0, b1, b2, b3]))) ∧
     PgType.decode .SmallInt .Binary (b0 :: b1 :: b2 :: b3 :: rest) =
        .ok (.Int16 (wrapI16 (toSigned 32 (beNat [b0, b1, b2, b3]))))) ∧
    (∀ raw : List Nat, raw.length < 4 →
      PgType.decode .SmallInt .Binary raw = .error (.NotEnoughBytes 4 raw .SmallInt) ∧
      PgType.decode .Integer .Binary raw = .error (.NotEnoughBytes 4 raw .Integer)) := by
  refine ⟨⟨?_, ?_⟩, ?_⟩
  · simp only [PgType.decode, PgType.decode_binary]
    rw [if_neg (by simp)]
    rfl
  · simp only [PgType.decode, PgType.decode_binary]
    rw [if_neg (by simp)]
    rfl
  · intro raw hlen
    constructor
    · simp only [PgType.decode, PgType.decode_binary]
      rw [if_pos hlen]
    · simp only [PgType.decode, PgType.decode_binary]
      rw [if_pos hlen]

/-- C8, witness: `[0,0,1,0]` decodes to `Integer 256`; `[0,1,0,0]`
truncates to `SmallInt 0` (the value `65536` mod `2^16`); three bytes are a
`NotEnoughBytes` error. -/
theorem int_binary_decode_witness :
    PgType.decode .Integer .Binary [0, 0, 1, 0, 9] = .ok (.Int32 256) ∧
    PgType.decode .SmallInt .Binary [0, 1, 0, 0] = .ok (.Int16 0) ∧
    PgType.decode .Integer .Binary [0, 0, 1] =
      .error (.NotEnoughBytes 4 [0, 0, 1] .Integer) := by
  refine ⟨?_, ?_, ?_⟩
  · have h := (int_binary_decode 0 0 1 0 [9]).1.1
    rw [show toSigned 32 (beNat [0, 0, 1, 0]) = 256 from by decide] at h
    exact h
  · have h := (int_binary_decode 0 1 0 0 []).1.2
    rw [show wrapI16 (toSigned 32 (beNat [0, 1, 0, 0])) = 0 from by decide] at h
    exact h
  · exact ((int_binary_decode 0 0 0 0 []).2 [0, 0, 1] (by decide)).2

/-! ## Claim C7: freed connection ids verify false until re-issued -/

theorem mapLookup_remove_self (m : List (Int × Int)) (id : Int) :
    mapLookup (mapRemove m id) id = none := by
  induction m with
  | nil => rfl
  | cons p rest ih =>
    obtain ⟨k, v⟩ := p
    by_cases hk : k = id
    · simpa [mapRemove, hk] using ih
    · unfold mapRemove
      rw [if_neg hk]
      unfold mapLookup
      rw [if_neg hk]
      exact ih

theorem mapLookup_remove_none {m : List (Int × Int)} {id : Int} (c : Int)
    (h : mapLookup m id = none) : mapLookup (mapRemove m c) id = none := by
  induction m with
  | nil => rfl
  | cons p rest ih =>
    obtain ⟨k, v⟩ := p
    unfold mapLookup at h
    by_cases hk : k = id
    · rw [if_pos hk] at h
      exact absurd h (by simp)
    · rw [if_neg hk] at h
      unfold mapRemove
      by_cases hc : k = c
      · rw [if_pos hc]
        exact ih h
      · rw [if_neg hc]
        unfold mapLookup
        rw [if_neg hk]
        exact ih h

theorem free_lookup_none (s : ConnSupervisorInner) (id : Int) :
    mapLookup (s.free id).current_mapping id = none := by
  unfold ConnSupervisorInner.free
  split
  · exact mapLookup_remove_self _ _
  · rename_i h
    cases hl : mapLookup s.current_mapping id with
    | none => rfl
    | some v => rw [hl] at h; simp at h

theorem free_preserves_none {s : ConnSupervisorInner} {id : Int} (fid : Int)
    (h : mapLookup s.current_mapping id = none) :
    mapLookup (s.free fid).current_mapping id = none := by
  unfold ConnSupervisorInner.free
  split
  · exact mapLookup_remove_none fid h
  · exact h

theorem generate_mapping {s : ConnSupervisorInner} {cid : Int} {s2 : ConnSupervisorInner}
    (h : s.generate_conn_id = .ok (cid, s2)) :
    s2.current_mapping = s.current_mapping := by
  unfold ConnSupervisorInner.generate_conn_id at h
  cases hf : s.free_ids with
  | cons a rest =>
    rw [hf] at h
    injection h with h'
    injection h' with hc hs
    subst hs
    rfl
  | nil =>
    rw [hf] at h
    by_cases hn : s.next_id > s.max_id
    · rw [if_pos hn] at h
      exact absurd h (by simp)
    · rw [if_neg hn] at h
      injection h with h'
      injection h' with hc hs
      subst hs
      rfl

theorem alloc_mapping {s : ConnSupervisorInner} {key : Int} {cid sk : Int}
    {s1 : ConnSupervisorInner} (h : s.alloc key = .ok ((cid, sk), s1)) :
    s1.current_mapping = mapInsert s.current_mapping cid key := by
  unfold ConnSupervisorInner.alloc at h
  cases hg : s.generate_conn_id with
  | error e => rw [hg] at h; exact absurd h (by simp)
  | ok pr =>
    obtain ⟨cid2, s2⟩ := pr
    rw [hg] at h
    injection h with h'
    injection h' with hp hs
    injection hp with hc hk
    subst hs
    subst hc
    show mapInsert s2.current_mapping cid2 key = mapInsert s.current_mapping cid2 key
    rw [generate_mapping hg]

theorem alloc_preserves_none {s : ConnSupervisorInner} {id key cid sk : Int}
    {s1 : ConnSupervisorInner} (h : s.alloc key = .ok ((cid, sk), s1))
    (hne : cid ≠ id) (hnone : mapLookup s.current_mapping id = none) :
    mapLookup s1.current_mapping id = none := by
  rw [alloc_mapping h]
  unfold mapInsert mapLookup
  rw [if_neg hne]
  exact mapLookup_remove_none cid hnone

theorem verify_of_lookup_none {s : ConnSupervisorInner} {id : Int}
    (h : mapLookup s.current_mapping id = none) (k : Int) :
    s.verify id k = false := by
  unfold ConnSupervisorInner.verify
  rw [h]

theorem supRun_verify_false (ops : List SupOp) :
    ∀ (s : ConnSupervisorInner) (id k : Int),
      mapLookup s.current_mapping id = none → reissues s id ops = false →
      (supRun s ops).verify id k = false := by
  induction ops with
  | nil =>
    intro s id k hn _
    exact verify_of_lookup_none hn k
  | cons op rest ih =>
    intro s id k hn hre
    cases op with
    | alloc key =>
      cases halloc : s.alloc key with
      | ok pr =>
        obtain ⟨⟨cid, sk⟩, s1⟩ := pr
        simp only [reissues, halloc, Bool.or_eq_false_iff,
          decide_eq_false_iff_not] at hre
        have hstep : supStep s (.alloc key) = s1 := by
          simp only [supStep, halloc]
        show (supRun (supStep s (.alloc key)) rest).verify id k = false
        rw [hstep]
        exact ih s1 id k (alloc_preserves_none halloc hre.1 hn) hre.2
      | error e =>
        simp only [reissues, halloc] at hre
        have hstep : supStep s (.alloc key) = s := by
          simp only [supStep, halloc]
        show (supRun (supStep s (.alloc key)) rest).verify id k = false
        rw [hstep]
        exact ih s id k hn hre
    | free fid =>
      simp only [reissues] at hre
      show (supRun (s.free fid) rest).verify id k = false
      exact ih (s.free fid) id k (free_preserves_none fid hn) hre

/-- C7: immediately after `free(id)` the supervisor verifies no secret key
for `id`, and along any further run of `alloc`/`free` operations in which
no `alloc` re-issues `id`, `verify(id, k)` stays `false` for every `k`. -/
theorem free_verify_false_until_reissue (s : ConnSupervisorInner) (id : Int)
    (ops : List SupOp) (k : Int) (h : reissues (s.free id) id ops = false) :
    (s.free id).verify id k = false ∧
    (supRun (s.free id) ops).verify id k = false :=
  ⟨verify_of_lookup_none (free_lookup_none s id) k,
   supRun_verify_false ops (s.free id) id k (free_lookup_none s id) h⟩

/-- C7, witness: in a supervisor holding `id = 1` with key `7`, freeing `1`
and then freeing an unrelated id never lets `verify 1` succeed. -/
theorem free_verify_false_until_reissue_witness :
    (reissues (ConnSupervisorInner.free
      { next_id := 2, max_id := 10, free_ids := [], current_mapping := [(1, 7)] } 1)
      1 [.free 3] = false) ∧
    (ConnSupervisorInner.free
      { next_id := 2, max_id := 10, free_ids := [], current_mapping := [(1, 7)] } 1).verify
      1 7 = false ∧
    (supRun (ConnSupervisorInner.free
      { next_id := 2, max_id := 10, free_ids := [], current_mapping := [(1, 7)] } 1)
      [.free 3]).verify 1 7 = false :=
  ⟨by decide,
   free_verify_false_until_reissue
     { next_id := 2, max_id := 10, free_ids := [], current_mapping := [(1, 7)] }
     1 [.free 3] 7 (by decide)⟩

/-- C10, witness: the theorem at declared length `-2`. -/
theorem bind_negative_length_empty_param_witness :
    decode_bind ([0, 0, 0, 0, 0, 1] ++ i32ToBeBytes (-2) ++ [0, 0]) =
      .ok (.Bind [] [] [] [some []] []) :=
  (bind_negative_length_empty_param (-2) (by norm_num) (by norm_num) (by norm_num)).1

/-! ## Claim C2: the codec round-trip law

Supporting lemmas about decimal digits, parsing, and trimming. -/

theorem digitsVal_append (xs : List Nat) (d : Nat) :
    digitsVal (xs ++ [d]) = 10 * digitsVal xs + d := by
  unfold digitsVal
  rw [List.foldl_append]
  simp [Nat.mul_comm]

theorem natDigitsF_spec : ∀ f n, n ≤ f →
    digitsVal (natDigitsF f n) = n ∧ (∀ d ∈ natDigitsF f n, d < 10) ∧
      natDigitsF f n ≠ [] := by
  intro f
  induction f with
  | zero =>
    intro n hn
    have : n = 0 := by omega
    subst this
    refine ⟨rfl, ?_, by simp [natDigitsF]⟩
    intro d hd
    simp [natDigitsF] at hd
    omega
  | succ f ih =>
    intro n hn
    by_cases h10 : n < 10
    · refine ⟨?_, ?_, ?_⟩ <;> simp [natDigitsF, h10, digitsVal]
    · have hdiv : n / 10 ≤ f := by
        have := Nat.div_lt_self (by omega : 0 < n) (by norm_num : 1 < 10)
        omega
      obtain ⟨hv, hd, hne⟩ := ih (n / 10) hdiv
      have heq : natDigitsF (f + 1) n = natDigitsF f (n / 10) ++ [n % 10] := by
        simp [natDigitsF, h10]
      refine ⟨?_, ?_, ?_⟩
      · rw [heq, digitsVal_append, hv]
        omega
      · intro d hdm
        rw [heq] at hdm
        rcases List.mem_append.mp hdm with hm | hm
        · exact hd d hm
        · simp at hm
          omega
      · rw [heq]
        simp
  
theorem natDigits_val (n : Nat) : digitsVal (natDigits n) = n :=
  (natDigitsF_spec n n le_rfl).1

theorem natDigits_lt10 (n : Nat) : ∀ d ∈ natDigits n, d < 10 :=
  (natDigitsF_spec n n le_rfl).2.1

theorem natDigits_ne_nil (n : Nat) : natDigits n ≠ [] :=
  (natDigitsF_spec n n le_rfl).2.2

theorem natDecBytes_mem (n : Nat) : ∀ c ∈ natDecBytes n, 48 ≤ c ∧ c ≤ 57 := by
  intro c hc
  unfold natDecBytes at hc
  obtain ⟨d, hd, hdc⟩ := List.mem_map.mp hc
  have := natDigits_lt10 n d hd
  omega

theorem intDecBytes_mem (x : Int) : ∀ c ∈ intDecBytes x, c = 45 ∨ (48 ≤ c ∧ c ≤ 57) := by
  intro c hc
  unfold intDecBytes at hc
  split at hc
  · rcases List.mem_cons.mp hc with hc2 | hc2
    · left; exact hc2
    · right; exact natDecBytes_mem _ c hc2
  · right; exact natDecBytes_mem _ c hc

theorem intDecBytes_ascii (x : Int) : ∀ c ∈ intDecBytes x, c < 0x80 := by
  intro c hc
  rcases intDecBytes_mem x c hc with h | h <;> omega

theorem isWs_eq_false_of_le57 {c : Nat} (h9 : 44 ≤ c) (h57 : c ≤ 57) :
    isWs c = false := by
  unfold isWs
  simp only [Bool.or_eq_false_iff, beq_eq_false_iff_ne, ne_eq,
    decide_eq_false_iff_not, not_and, not_le]
  omega

theorem dropWhile_eq_self_of_all {p : Nat → Bool} {cs : List Nat}
    (h : ∀ c ∈ cs, p c = false) : cs.dropWhile p = cs := by
  cases cs with
  | nil => rfl
  | cons c rest =>
    rw [List.dropWhile_cons]
    rw [h c (by simp)]
    simp

theorem trimChars_eq_self {cs : List Nat} (h : ∀ c ∈ cs, isWs c = false) :
    trimChars cs = cs := by
  unfold trimChars
  rw [dropWhile_eq_self_of_all h,
      dropWhile_eq_self_of_all (fun c hc => h c (List.mem_reverse.mp hc)),
      List.reverse_reverse]

theorem parseDigits_natDecBytes (n : Nat) : parseDigits (natDecBytes n) = some n := by
  unfold parseDigits
  rw [if_neg (by simp [natDecBytes, natDigits_ne_nil n])]
  rw [if_pos ?hall]
  case hall =>
    rw [List.all_eq_true]
    intro c hc
    have := natDecBytes_mem n c hc
    unfold isDigit
    simp only [Bool.and_eq_true, decide_eq_true_eq]
    omega
  congr 1
  have hmap : (natDecBytes n).map (· - 48) = natDigits n := by
    unfold natDecBytes
    rw [List.map_map]
    have : ((· - 48) ∘ (· + 48) : Nat → Nat) = id := by
      funext d
      simp
    rw [this, List.map_id]
  rw [hmap, natDigits_val]

theorem parseIntRust_intDecBytes (x lo hi : Int) (h1 : lo ≤ x) (h2 : x ≤ hi) :
    parseIntRust (intDecBytes x) lo hi = some x := by
  by_cases hx : x < 0
  · have hshape : intDecBytes x = 45 :: natDecBytes (-x).toNat := by
      unfold intDecBytes
      rw [if_pos hx]
    have hcast : (((-x).toNat : Nat) : Int) = -x := by
      rw [Int.toNat_of_nonneg (by omega)]
    rw [hshape]
    norm_num [parseIntRust, parseDigits_natDecBytes, hcast]
    exact fun h => absurd (h h1) (by omega)
  · push_neg at hx
    have hshape : intDecBytes x = natDecBytes x.toNat := by
      unfold intDecBytes
      rw [if_neg (by omega)]
    cases hds : natDigits x.toNat with
    | nil => exact absurd hds (natDigits_ne_nil _)
    | cons d ds =>
      have hd10 : d < 10 := natDigits_lt10 _ d (by rw [hds]; simp)
      have hcons : natDecBytes x.toNat = (d + 48) :: ds.map (· + 48) := by
        unfold natDecBytes
        rw [hds, List.map_cons]
      rw [hshape, hcons]
      simp only [parseIntRust]
      rw [if_neg (by omega), if_neg (by omega), ← hcons, parseDigits_natDecBytes]
      norm_num [Int.toNat_of_nonneg hx]
      exact fun h => absurd (h h1) (by omega)

theorem intDecBytes_no_ws (x : Int) : ∀ c ∈ intDecBytes x, isWs c = false := by
  intro c hc
  rcases intDecBytes_mem x c hc with h | h
  · exact isWs_eq_false_of_le57 (by omega) (by omega)
  · exact isWs_eq_false_of_le57 (by omega) (by omega)

theorem decode_text_intDec (x : Int) :
    utf8Decode (intDecBytes x) = some (intDecBytes x) ∧
    trimChars (intDecBytes x) = intDecBytes x :=
  ⟨utf8Decode_ascii (intDecBytes_ascii x), trimChars_eq_self (intDecBytes_no_ws x)⟩

/-- C2: for every supported pair of `PgType` and `PgFormat` and every
well-formed value of that type, decoding the encoding of the value in that
format yields the value back, and re-encoding the decoded value reproduces
the original bytes (the encoder `encodeValue` is modelled from the spec:
the repository only implements `decode`). -/
theorem codec_round_trip (t : PgType) (fmt : PgFormat) (v : Value)
    (h : wellFormedValue t v) :
    PgType.decode t fmt (encodeValue t fmt v) = .ok v ∧
    (∀ w, PgType.decode t fmt (encodeValue t fmt v) = .ok w →
      encodeValue t fmt w = encodeValue t fmt v) := by
  have main : PgType.decode t fmt (encodeValue t fmt v) = .ok v := by
    cases t <;> cases v <;> (try exact h.elim) <;> cases fmt
    case SmallInt.Int16.Text =>
      rename_i x
      obtain ⟨hl, hr⟩ := h
      obtain ⟨hascii, htrim⟩ := decode_text_intDec x
      have hparse := parseIntRust_intDecBytes x (-(2 ^ 15)) (2 ^ 15 - 1)
        (by omega) (by omega)
      simp only [encodeValue, PgType.decode, PgType.decode_text, hascii, htrim, hparse]
    case SmallInt.Int16.Binary =>
      rename_i x
      obtain ⟨hl, hr⟩ := h
      simp only [encodeValue, PgType.decode, PgType.decode_binary]
      rw [if_neg (by simp [i32ToBeBytes_length])]
      rw [beI32_i32ToBeBytes x (by omega) (by omega)]
      rw [wrapI16_of_range hl hr]
    case Integer.Int32.Text =>
      rename_i x
      obtain ⟨hl, hr⟩ := h
      obtain ⟨hascii, htrim⟩ := decode_text_intDec x
      have hparse := parseIntRust_intDecBytes x (-(2 ^ 31)) (2 ^ 31 - 1)
        (by omega) (by omega)
      simp only [encodeValue, PgType.decode, PgType.decode_text, hascii, htrim, hparse]
    case Integer.Int32.Binary =>
      rename_i x
      obtain ⟨hl, hr⟩ := h
      simp only [encodeValue, PgType.decode, PgType.decode_binary]
      rw [if_neg (by simp [i32ToBeBytes_length])]
      rw [beI32_i32ToBeBytes x hl hr]
    case BigInt.Int64.Text =>
      rename_i x
      obtain ⟨hl, hr⟩ := h
      obtain ⟨hascii, htrim⟩ := decode_text_intDec x
      have hparse := parseIntRust_intDecBytes x (-(2 ^ 63)) (2 ^ 63 - 1)
        (by omega) (by omega)
      simp only [encodeValue, PgType.decode, PgType.decode_text, hascii, htrim, hparse]
    case BigInt.Int64.Binary =>
      rename_i x
      obtain ⟨hl, hr⟩ := h
      simp only [encodeValue, PgType.decode, PgType.decode_binary]
      rw [if_neg (by simp [i64ToBeBytes_length])]
      rw [beI64_i64ToBeBytes x hl hr]
    case Char.String.Text =>
      rename_i bs
      obtain ⟨cs, hcs⟩ := Option.isSome_iff_exists.mp h
      simp only [encodeValue, PgType.decode, PgType.decode_text, hcs]
    case Char.String.Binary =>
      rename_i bs
      obtain ⟨cs, hcs⟩ := Option.isSome_iff_exists.mp h
      simp only [encodeValue, PgType.decode, PgType.decode_binary, hcs]
    case VarChar.String.Text =>
      rename_i bs
      obtain ⟨cs, hcs⟩ := Option.isSome_iff_exists.mp h
      simp only [encodeValue, PgType.decode, PgType.decode_text, hcs]
    case VarChar.String.Binary =>
      rename_i bs
      obtain ⟨cs, hcs⟩ := Option.isSome_iff_exists.mp h
      simp only [encodeValue, PgType.decode, PgType.decode_binary, hcs]
    case Bool.Bool.Text =>
      rename_i b
      cases b <;> decide
    case Bool.Bool.Binary =>
      rename_i b
      cases b <;> decide
  refine ⟨main, fun w hw => ?_⟩
  rw [main] at hw
  injection hw with hw'
  rw [hw']

/-- C2, witness: the round trip at `Integer`/`Binary` on value `5`, and at
`VarChar`/`Text` on the string `"ab"`. -/
theorem codec_round_trip_witness :
    PgType.decode .Integer .Binary (encodeValue .Integer .Binary (.Int32 5)) =
      .ok (.Int32 5) ∧
    PgType.decode .VarChar .Text (encodeValue .VarChar .Text (.String [97, 98])) =
      .ok (.String [97, 98]) :=
  ⟨(codec_round_trip .Integer .Binary (.Int32 5) (by constructor <;> norm_num)).1,
   (codec_round_trip .VarChar .Text (.String [97, 98])
     (show utf8Valid [97, 98] = true by decide)).1⟩

end PgWire
